import Mathlib

/-!
Verification of the RapidCopy chunked-validation subsystem.

This file gives a shallow embedding, in Lean 4, of the Python sources under
`src/python/` of the RapidCopy repository:

  * `common/validation_models.py` — `ChunkStatus`, `ChunkInfo`,
    `FileValidationInfo`, `ValidationConfig`, `NetworkStats`;
  * `controller/validate/chunk_manager.py` — `ChunkManager`;
  * `controller/validate/adaptive_sizing.py` — `AdaptiveChunkSizer`;
  * `controller/validate/checksum.py` — `RemoteChecksumGenerator` batching;
  * `controller/validate/validation_process.py` — `ValidationDispatch`;
  * `controller/controller.py` — the validation-facing part of the
    controller tick (`Controller.__process_validation_results`).

Modelling conventions:
  * Python `int` is modelled as `Int` (or `Nat` where the source only ever
    produces non-negative values: offsets, sizes, counters, indices).
  * Python `float` values (network statistics, multiplicative factors) are
    modelled as exact rationals `Rat`; `int(x)` is truncation toward zero
    and `//` is floor division, each modelled explicitly.
  * Python dictionaries are modelled as functions into `Option`.
  * Fallible I/O (hashing a file, running a remote command) is modelled by
    an explicit environment of oracle functions returning `Except`.
  * Mutating methods become pure functions returning the updated state.
-/

/-- Status of a file chunk during validation (`ChunkStatus` in
`validation_models.py`). -/
inductive ChunkStatus where
  | PENDING
  | VALIDATING
  | VALID
  | CORRUPT
  | DOWNLOADING
  | SKIPPED
deriving DecidableEq, Repr

/-- Supported checksum algorithms (`ValidationAlgorithm` in
`validation_models.py`). -/
inductive ValidationAlgorithm where
  | MD5
  | SHA256
  | SHA1
deriving DecidableEq, Repr

/-- A chunk of a file for validation purposes (`ChunkInfo` in
`validation_models.py`). -/
structure ChunkInfo where
  index : Nat
  offset : Nat
  size : Nat
  remote_checksum : Option String := none
  local_checksum : Option String := none
  status : ChunkStatus := ChunkStatus.PENDING
  retry_count : Nat := 0
deriving DecidableEq, Repr

namespace ChunkInfo

/-- `ChunkInfo.end_offset`: byte offset where this chunk ends (exclusive). -/
def end_offset (c : ChunkInfo) : Nat := c.offset + c.size

/-- `ChunkInfo.is_valid`: both checksums present and equal. -/
def is_valid (c : ChunkInfo) : Bool :=
  c.remote_checksum.isSome && c.local_checksum.isSome &&
    (c.remote_checksum == c.local_checksum)

/-- `ChunkInfo.mark_valid`. -/
def mark_valid (c : ChunkInfo) : ChunkInfo := { c with status := ChunkStatus.VALID }

/-- `ChunkInfo.mark_corrupt`. -/
def mark_corrupt (c : ChunkInfo) : ChunkInfo := { c with status := ChunkStatus.CORRUPT }

/-- `ChunkInfo.mark_downloading`: set status DOWNLOADING and increment
`retry_count`. -/
def mark_downloading (c : ChunkInfo) : ChunkInfo :=
  { c with status := ChunkStatus.DOWNLOADING, retry_count := c.retry_count + 1 }

end ChunkInfo

/-- Validation state for a single file (`FileValidationInfo` in
`validation_models.py`). -/
structure FileValidationInfo where
  file_path : String
  file_size : Nat
  algorithm : ValidationAlgorithm := ValidationAlgorithm.MD5
  chunks : List ChunkInfo := []
  full_file_checksum : Option String := none
  local_full_checksum : Option String := none
  is_complete : Bool := false
  is_valid : Option Bool := none
deriving DecidableEq, Repr

namespace FileValidationInfo

/-- `FileValidationInfo.total_chunks`. -/
def total_chunks (info : FileValidationInfo) : Nat := info.chunks.length

/-- `FileValidationInfo.validated_chunks`: chunks in VALID or CORRUPT state. -/
def validated_chunks (info : FileValidationInfo) : Nat :=
  (info.chunks.filter fun c =>
    c.status = ChunkStatus.VALID ∨ c.status = ChunkStatus.CORRUPT).length

/-- `FileValidationInfo.valid_chunks`. -/
def valid_chunks (info : FileValidationInfo) : Nat :=
  (info.chunks.filter fun c => c.status = ChunkStatus.VALID).length

/-- `FileValidationInfo.corrupt_chunks`: the chunks in CORRUPT state. -/
def corrupt_chunks (info : FileValidationInfo) : List ChunkInfo :=
  info.chunks.filter fun c => c.status = ChunkStatus.CORRUPT

/-- `FileValidationInfo.corrupt_chunk_indices`. -/
def corrupt_chunk_indices (info : FileValidationInfo) : List Nat :=
  (info.chunks.filter fun c => c.status = ChunkStatus.CORRUPT).map ChunkInfo.index

/-- `FileValidationInfo.progress`: validated / total (0 when no chunks). -/
def progress (info : FileValidationInfo) : Rat :=
  if info.chunks = [] then 0
  else (info.validated_chunks : Rat) / (info.total_chunks : Rat)

end FileValidationInfo

/-- Configuration for download validation (`ValidationConfig` in
`validation_models.py`).  The dataclass has exactly these fields; in
particular there is no `settle_delay_secs` field in the source. -/
structure ValidationConfig where
  enabled : Bool := true
  algorithm : ValidationAlgorithm := ValidationAlgorithm.MD5
  default_chunk_size : Nat := 10 * 1024 * 1024
  min_chunk_size : Nat := 1 * 1024 * 1024
  max_chunk_size : Nat := 100 * 1024 * 1024
  validate_after_chunk : Bool := false
  validate_after_file : Bool := true
  max_retries : Nat := 3
  retry_delay_ms : Nat := 1000
  enable_adaptive_sizing : Bool := true
  parallel_validation : Nat := 0
deriving DecidableEq, Repr

/-- The checks performed by `ValidationConfig.__post_init__`: every
`ValidationConfig` object that exists at runtime satisfies these
(`max_retries ≥ 0` is implicit in the `Nat` type). -/
def ValidationConfig.ok (c : ValidationConfig) : Prop :=
  0 < c.min_chunk_size ∧ c.min_chunk_size ≤ c.max_chunk_size ∧
    c.min_chunk_size ≤ c.default_chunk_size ∧ c.default_chunk_size ≤ c.max_chunk_size

instance (c : ValidationConfig) : Decidable c.ok := by
  unfold ValidationConfig.ok; infer_instance

/-- Network statistics for adaptive chunk sizing (`NetworkStats` in
`validation_models.py`).  Float fields are modelled as exact rationals. -/
structure NetworkStats where
  avg_speed_bytes_per_sec : Rat := 0
  recent_failure_rate : Rat := 0
  recent_chunk_failures : Nat := 0
  recent_chunk_successes : Nat := 0
deriving DecidableEq, Repr

/-- `NetworkStats.record_chunk_result`. -/
def NetworkStats.record_chunk_result (s : NetworkStats) (success : Bool) : NetworkStats :=
  let s := if success
    then { s with recent_chunk_successes := s.recent_chunk_successes + 1 }
    else { s with recent_chunk_failures := s.recent_chunk_failures + 1 }
  let total := s.recent_chunk_failures + s.recent_chunk_successes
  if 0 < total then
    { s with recent_failure_rate := (s.recent_chunk_failures : Rat) / (total : Rat) }
  else s

/-! ## Chunk manager (`controller/validate/chunk_manager.py`)

The manager's `_file_validations` dict is modelled as a function
`String → Option FileValidationInfo` (the claims under study do not depend
on dict iteration order).  Chunk indices passed to the manager are `Nat`:
every in-repo caller passes either an enumeration index or
`ChunkInfo.index`, both non-negative. -/

/-- The chunk manager's `_file_validations` mapping. -/
def CMap : Type := String → Option FileValidationInfo

/-- Pointwise update of the file-validations dict (`self._file_validations[p] = info`). -/
def CMap.insert (cm : CMap) (p : String) (info : FileValidationInfo) : CMap :=
  fun q => if q = p then some info else cm q

/-- Deletion from the file-validations dict (`del self._file_validations[p]`). -/
def CMap.erase (cm : CMap) (p : String) : CMap :=
  fun q => if q = p then none else cm q

/-- The empty dict (a fresh `ChunkManager`). -/
def CMap.empty : CMap := fun _ => none

namespace ChunkManager

/-- The chunk-building loop of `ChunkManager.create_chunks`:

    while offset < file_size:
        size = min(actual_chunk_size, file_size - offset)
        chunks.append(ChunkInfo(index, offset, size, status=PENDING))
        offset += size ; index += 1

The `fuel` argument bounds the iteration count (the Python loop runs at
most `file_size` times whenever the chunk size is ≥ 1, which
`create_chunks` guarantees by clamping to `min_chunk_size ≥ 1`). -/
def buildChunks (cs : Nat) (file_size : Nat) : Nat → Nat → Nat → List ChunkInfo
  | 0, _, _ => []
  | fuel + 1, offset, index =>
    if offset < file_size then
      let size := min cs (file_size - offset)
      { index := index, offset := offset, size := size } ::
        buildChunks cs file_size fuel (offset + size) (index + 1)
    else []

/-- The first two statements of `ChunkManager.create_chunks`:
`actual_chunk_size = chunk_size or self.config.default_chunk_size` (both
`None` and `0` fall back to the default), then
`actual_chunk_size = max(min_chunk_size, min(actual_chunk_size,
max_chunk_size))`.  The clamp is computed over `Int` because a
caller-supplied chunk size may be negative; the clamped value is at least
`min_chunk_size`, hence a `Nat`. -/
def effective_chunk_size (cfg : ValidationConfig) (chunk_size : Option Int) : Nat :=
  let requested : Int :=
    match chunk_size with
    | none => (cfg.default_chunk_size : Int)
    | some c => if c = 0 then (cfg.default_chunk_size : Int) else c
  (max (cfg.min_chunk_size : Int) (min requested (cfg.max_chunk_size : Int))).toNat

/-- `ChunkManager.create_chunks`: clamp the requested size via
`effective_chunk_size`, then lay out the chunks. -/
def create_chunks (cfg : ValidationConfig) (cm : CMap) (file_path : String)
    (file_size : Nat) (chunk_size : Option Int) : FileValidationInfo × CMap :=
  let actual : Nat := effective_chunk_size cfg chunk_size
  let chunks := buildChunks actual file_size file_size 0 0
  let info : FileValidationInfo :=
    { file_path := file_path, file_size := file_size, algorithm := cfg.algorithm,
      chunks := chunks }
  (info, cm.insert file_path info)

/-- `ChunkManager.get_validation_info`. -/
def get_validation_info (cm : CMap) (p : String) : Option FileValidationInfo := cm p

/-- `ChunkManager.get_pending_chunks`. -/
def get_pending_chunks (cm : CMap) (p : String) : List ChunkInfo :=
  match cm p with
  | none => []
  | some info => info.chunks.filter fun c => c.status = ChunkStatus.PENDING

/-- `ChunkManager.get_corrupt_chunks`. -/
def get_corrupt_chunks (cm : CMap) (p : String) : List ChunkInfo :=
  match cm p with
  | none => []
  | some info => info.corrupt_chunks

/-- Replace chunk `i` of the tracked file `p` (the Python code mutates
`info.chunks[chunk_index]` in place). -/
def setChunk (cm : CMap) (p : String) (info : FileValidationInfo) (i : Nat)
    (c : ChunkInfo) : CMap :=
  cm.insert p { info with chunks := info.chunks.set i c }

/-- `ChunkManager.update_chunk_checksum`: update whichever of the two
checksums was supplied; `None` (not found / index out of range) leaves the
state untouched. -/
def update_chunk_checksum (cm : CMap) (p : String) (i : Nat)
    (local_checksum remote_checksum : Option String) : Option ChunkInfo × CMap :=
  match cm p with
  | none => (none, cm)
  | some info =>
    match info.chunks.get? i with
    | none => (none, cm)
    | some c =>
      let c :=
        match local_checksum with
        | some v => { c with local_checksum := some v }
        | none => c
      let c :=
        match remote_checksum with
        | some v => { c with remote_checksum := some v }
        | none => c
      (some c, setChunk cm p info i c)

/-- `ChunkManager.validate_chunk`: compare the two checksums of chunk `i`;
returns `some true`/`some false` and marks the chunk VALID/CORRUPT, or
`none` when the file or chunk is unknown or a checksum is missing.  (The
transient `VALIDATING` assignment in the source is immediately overwritten
by `mark_valid`/`mark_corrupt`.) -/
def validate_chunk (cm : CMap) (p : String) (i : Nat) : Option Bool × CMap :=
  match cm p with
  | none => (none, cm)
  | some info =>
    match info.chunks.get? i with
    | none => (none, cm)
    | some c =>
      match c.local_checksum, c.remote_checksum with
      | some lc, some rc =>
        if lc = rc then (some true, setChunk cm p info i c.mark_valid)
        else (some false, setChunk cm p info i c.mark_corrupt)
      | _, _ => (none, cm)

/-- `ChunkManager.mark_file_complete`. -/
def mark_file_complete (cm : CMap) (p : String) (is_valid : Bool) :
    Option FileValidationInfo × CMap :=
  match cm p with
  | none => (none, cm)
  | some info =>
    let info := { info with is_complete := true, is_valid := some is_valid }
    (some info, cm.insert p info)

/-- `ChunkManager.set_full_file_checksums`. -/
def set_full_file_checksums (cm : CMap) (p : String)
    (local_checksum remote_checksum : Option String) :
    Option FileValidationInfo × CMap :=
  match cm p with
  | none => (none, cm)
  | some info =>
    let info :=
      match local_checksum with
      | some v => { info with local_full_checksum := some v }
      | none => info
    let info :=
      match remote_checksum with
      | some v => { info with full_file_checksum := some v }
      | none => info
    (some info, cm.insert p info)

/-- `ChunkManager.validate_full_file`. -/
def validate_full_file (cm : CMap) (p : String) : Option Bool × CMap :=
  match cm p with
  | none => (none, cm)
  | some info =>
    match info.local_full_checksum, info.full_file_checksum with
    | some lc, some rc =>
      let v := lc = rc
      (some v, (mark_file_complete cm p v).2)
    | _, _ => (none, cm)

/-- `ChunkManager.can_retry_chunk`: `retry_count < max_retries`, `False`
when the file or chunk is unknown. -/
def can_retry_chunk (cfg : ValidationConfig) (cm : CMap) (p : String) (i : Nat) : Bool :=
  match cm p with
  | none => false
  | some info =>
    match info.chunks.get? i with
    | none => false
    | some c => c.retry_count < cfg.max_retries

/-- `ChunkManager.mark_chunk_downloading`. -/
def mark_chunk_downloading (cm : CMap) (p : String) (i : Nat) : Option ChunkInfo × CMap :=
  match cm p with
  | none => (none, cm)
  | some info =>
    match info.chunks.get? i with
    | none => (none, cm)
    | some c =>
      let c := c.mark_downloading
      (some c, setChunk cm p info i c)

/-- `ChunkManager.reset_chunk`: back to PENDING with the local checksum
cleared. -/
def reset_chunk (cm : CMap) (p : String) (i : Nat) : Option ChunkInfo × CMap :=
  match cm p with
  | none => (none, cm)
  | some info =>
    match info.chunks.get? i with
    | none => (none, cm)
    | some c =>
      let c := { c with status := ChunkStatus.PENDING, local_checksum := none }
      (some c, setChunk cm p info i c)

/-- `ChunkManager.remove_file`. -/
def remove_file (cm : CMap) (p : String) : Bool × CMap :=
  match cm p with
  | none => (false, cm)
  | some _ => (true, cm.erase p)

end ChunkManager

/-! ## Adaptive chunk sizing (`controller/validate/adaptive_sizing.py`)

Chunk sizes flow through the adjustment chain as Python `int`s, modelled
as `Int`.  `x // y` is floor division (`Int.fdiv`); `int(x)` on a float is
truncation toward zero (`pyTrunc`); float multiplications such as
`chunk_size * 1.5` are modelled as exact rational products. -/

/-- Python `int(x)` applied to a (rational-modelled) float: truncation
toward zero. -/
def pyTrunc (q : Rat) : Int := Int.tdiv q.num (q.den : Int)

namespace AdaptiveChunkSizer

/-- `AdaptiveChunkSizer.SMALL_FILE_THRESHOLD` (10 MiB). -/
def SMALL_FILE_THRESHOLD : Nat := 10 * 1024 * 1024

/-- `AdaptiveChunkSizer.MEDIUM_FILE_THRESHOLD` (100 MiB). -/
def MEDIUM_FILE_THRESHOLD : Nat := 100 * 1024 * 1024

/-- `AdaptiveChunkSizer.LARGE_FILE_THRESHOLD` (1 GiB). -/
def LARGE_FILE_THRESHOLD : Nat := 1024 * 1024 * 1024

/-- `AdaptiveChunkSizer.SLOW_NETWORK_THRESHOLD` (1 MiB/s). -/
def SLOW_NETWORK_THRESHOLD : Nat := 1 * 1024 * 1024

/-- `AdaptiveChunkSizer.FAST_NETWORK_THRESHOLD` (10 MiB/s). -/
def FAST_NETWORK_THRESHOLD : Nat := 10 * 1024 * 1024

/-- `AdaptiveChunkSizer.LOW_FAILURE_THRESHOLD` (1%). -/
def LOW_FAILURE_THRESHOLD : Rat := 1 / 100

/-- `AdaptiveChunkSizer.HIGH_FAILURE_THRESHOLD` (5%). -/
def HIGH_FAILURE_THRESHOLD : Rat := 5 / 100

/-- `AdaptiveChunkSizer._adjust_for_file_size`.  For small files the source
computes `min(chunk_size // 4, file_size // 4) or chunk_size`: the Python
`or` falls back to the unmodified `chunk_size` whenever the minimum is `0`
(`0` is falsy). -/
def adjust_for_file_size (chunk_size : Int) (file_size : Nat) : Int :=
  if file_size < SMALL_FILE_THRESHOLD then
    let m := min (chunk_size.fdiv 4) ((file_size : Int).fdiv 4)
    if m ≠ 0 then m else chunk_size
  else if file_size < MEDIUM_FILE_THRESHOLD then
    chunk_size
  else if file_size < LARGE_FILE_THRESHOLD then
    pyTrunc ((chunk_size : Rat) * (3 / 2))
  else
    chunk_size * 2

/-- `AdaptiveChunkSizer._adjust_for_network_speed`. -/
def adjust_for_network_speed (chunk_size : Int) (stats : NetworkStats) : Int :=
  let speed := stats.avg_speed_bytes_per_sec
  if speed ≤ 0 then chunk_size
  else if speed < (SLOW_NETWORK_THRESHOLD : Rat) then chunk_size.fdiv 2
  else if speed > (FAST_NETWORK_THRESHOLD : Rat) then pyTrunc ((chunk_size : Rat) * (3 / 2))
  else chunk_size

/-- `AdaptiveChunkSizer._adjust_for_failure_rate`. -/
def adjust_for_failure_rate (chunk_size : Int) (stats : NetworkStats) : Int :=
  let failure_rate := stats.recent_failure_rate
  if failure_rate < LOW_FAILURE_THRESHOLD then
    pyTrunc ((chunk_size : Rat) * (5 / 4))
  else if failure_rate > HIGH_FAILURE_THRESHOLD then
    pyTrunc ((chunk_size : Rat) * min (1 / 2) (1 - failure_rate))
  else chunk_size

/-- `AdaptiveChunkSizer.calculate_chunk_size`.  With adaptive sizing
disabled it returns the config default unconditionally; otherwise it
applies the three adjustments to the default, clamps into
`[min_chunk_size, max_chunk_size]` and finally caps by the file size. -/
def calculate_chunk_size (cfg : ValidationConfig) (stats : NetworkStats)
    (file_size : Nat) : Int :=
  if !cfg.enable_adaptive_sizing then (cfg.default_chunk_size : Int)
  else
    let c := (cfg.default_chunk_size : Int)
    let c := adjust_for_file_size c file_size
    let c := adjust_for_network_speed c stats
    let c := adjust_for_failure_rate c stats
    let c := max (cfg.min_chunk_size : Int) (min c (cfg.max_chunk_size : Int))
    min c (file_size : Int)

/-- `AdaptiveChunkSizer.update_network_stats` restricted to the
`chunk_success` keyword, the only form `ValidationDispatch` uses. -/
def update_network_stats_success (stats : NetworkStats) (chunk_success : Bool) :
    NetworkStats :=
  stats.record_chunk_result chunk_success

end AdaptiveChunkSizer

/-! ## Remote batched checksums (`controller/validate/checksum.py`)

`RemoteChecksumGenerator.compute_chunk_checksums` splits the chunk list
into batches of at most `_MAX_CHUNKS_PER_BATCH = 100`, runs one remote
shell command per batch (the per-chunk `dd | hash` commands joined with
"; "), and parses one checksum per output line.  The SSH transport is an
oracle `String → Except Unit String` from command text to decoded output
(or a transport error); both `SshcpError` and the count-mismatch
`ChecksumError` are modelled as `Except.error`. -/

namespace RemoteChecksumGenerator

/-- `_MAX_CHUNKS_PER_BATCH`. -/
def MAX_CHUNKS_PER_BATCH : Nat := 100

/-- A single-quote character, written via an escape. -/
def sq : String := "\x27"

/-- `RemoteChecksumGenerator._get_checksum_command`. -/
def get_checksum_command : ValidationAlgorithm → String
  | ValidationAlgorithm.MD5 => "md5sum"
  | ValidationAlgorithm.SHA256 => "sha256sum"
  | ValidationAlgorithm.SHA1 => "sha1sum"

/-- Shell escaping of the remote path: `file_path.replace("'", "'\\''")`. -/
def escape_path (p : String) : String :=
  p.replace sq (sq ++ "\\" ++ sq ++ sq)

/-- The per-chunk `dd | hash` command built inside `_compute_chunk_batch`:
4 KiB blocks when offset and size are both 4096-aligned, else byte-level
`bs=1`. -/
def chunk_command (alg : ValidationAlgorithm) (file_path : String) (c : ChunkInfo) :
    String :=
  let cmd := get_checksum_command alg
  let ep := escape_path file_path
  if c.offset % 4096 = 0 ∧ c.size % 4096 = 0 then
    "dd if=" ++ sq ++ ep ++ sq ++ " bs=4096 skip=" ++ toString (c.offset / 4096) ++
      " count=" ++ toString (c.size / 4096) ++ " 2>/dev/null | " ++ cmd
  else
    "dd if=" ++ sq ++ ep ++ sq ++ " bs=1 skip=" ++ toString c.offset ++
      " count=" ++ toString c.size ++ " 2>/dev/null | " ++ cmd

/-- The compound command for one batch: the chunk commands joined with
`"; "`. -/
def batch_command (alg : ValidationAlgorithm) (file_path : String)
    (chunks : List ChunkInfo) : String :=
  String.intercalate "; " (chunks.map (chunk_command alg file_path))

/-- Output parsing of `_compute_chunk_batch`:
`output.decode().strip().split("\n")`, then per line take the first
whitespace-separated token, skipping token-less lines. -/
def parse_batch_output (out : String) : List String :=
  (out.trim.splitOn "\n").filterMap fun line =>
    ((line.trim.split Char.isWhitespace).filter (· ≠ "")).head?

/-- `RemoteChecksumGenerator._compute_chunk_batch`: one remote call; a
transport failure or a parsed-count mismatch is an error. -/
def compute_chunk_batch (shell : String → Except Unit String)
    (alg : ValidationAlgorithm) (file_path : String) (chunks : List ChunkInfo) :
    Except Unit (List String) :=
  match shell (batch_command alg file_path chunks) with
  | Except.error e => Except.error e
  | Except.ok out =>
    let checksums := parse_batch_output out
    if checksums.length ≠ chunks.length then Except.error ()
    else Except.ok checksums

/-- The batching loop of `compute_chunk_checksums`:
`chunks[0:100], chunks[100:200], ...` (fuel-based recursion; each
iteration consumes at least one chunk, so `l.length` fuel suffices). -/
def batchesAux : Nat → List ChunkInfo → List (List ChunkInfo)
  | 0, _ => []
  | fuel + 1, l =>
    if l = [] then []
    else l.take MAX_CHUNKS_PER_BATCH :: batchesAux fuel (l.drop MAX_CHUNKS_PER_BATCH)

/-- `range(0, len(chunks), 100)` slicing of the chunk list. -/
def batches (l : List ChunkInfo) : List (List ChunkInfo) :=
  batchesAux l.length l

/-- Run the batches in order, stopping at the first failing batch (a raised
`ChecksumError` aborts the loop).  Returns the overall result together
with the list of batches actually issued to the remote side. -/
def run_batches (shell : String → Except Unit String) (alg : ValidationAlgorithm)
    (file_path : String) : List (List ChunkInfo) →
    Except Unit (List String) × List (List ChunkInfo)
  | [] => (Except.ok [], [])
  | b :: rest =>
    match compute_chunk_batch shell alg file_path b with
    | Except.error e => (Except.error e, [b])
    | Except.ok cs =>
      match run_batches shell alg file_path rest with
      | (Except.error e, t) => (Except.error e, b :: t)
      | (Except.ok l, t) => (Except.ok (cs ++ l), b :: t)

/-- `RemoteChecksumGenerator.compute_chunk_checksums`: empty input short-
circuits to `[]`; otherwise the batches are processed in order and their
checksum lists concatenated.  The second component is the trace of batches
issued remotely. -/
def compute_chunk_checksums (shell : String → Except Unit String)
    (alg : ValidationAlgorithm) (file_path : String) (chunks : List ChunkInfo) :
    Except Unit (List String) × List (List ChunkInfo) :=
  if chunks = [] then (Except.ok [], [])
  else run_batches shell alg file_path (batches chunks)

end RemoteChecksumGenerator

/-! ## Validation dispatch (`controller/validate/validation_process.py`)

`ValidationDispatch` is embedded as a pure state machine.  External
effects — hashing local bytes, running remote hash commands — are an
oracle environment `Env`; each dispatch entry point additionally returns
the list of observable external calls it made (`VEvent`), which is how the
absence of any `time.sleep` call in the source is made checkable. -/

/-- `os.path.join` for the two-argument uses in the dispatch: an absolute
second component replaces the first, otherwise the parts are joined with a
single separator (leading/trailing separators checked on the character
list). -/
def pyJoin (a b : String) : String :=
  if b.data.head? = some '/' then b
  else if a = "" then b
  else if a.data.getLast? = some '/' then a ++ b
  else a ++ "/" ++ b

/-- `os.path.basename`: the part after the last separator (computed on the
character list). -/
def pyBasename (s : String) : String := String.mk ((s.data.splitOn '/').getLastD [])

/-- `ValidationCommand`.  Of the `ModelFile` carried by the source's
command only `.name` is ever read by the dispatch, so the embedding keeps
just that name. -/
structure ValidationCommand where
  file_name : String
  local_path : String
  remote_path : String
  file_size : Nat
  inline : Bool := false
deriving DecidableEq, Repr

/-- `CorruptChunkRedownload`: emitted when a corrupt chunk needs
re-downloading. -/
structure CorruptChunkRedownload where
  local_path : String
  remote_path : String
  chunk_index : Nat
  offset : Nat
  size : Nat
deriving DecidableEq, Repr

/-- `CorruptChunkRedownload.end_offset`. -/
def CorruptChunkRedownload.end_offset (r : CorruptChunkRedownload) : Nat :=
  r.offset + r.size

/-- `ResumeChunkCommand`: controller-to-validator resume message. -/
structure ResumeChunkCommand where
  local_path : String
  chunk_index : Nat
deriving DecidableEq, Repr

/-- `ValidationCompletedResult` (the wall-clock `timestamp` field is
omitted from the model). -/
structure ValidationCompletedResult where
  name : String
  file_path : String
  is_valid : Bool
  corrupt_chunks : List Nat
deriving DecidableEq, Repr

/-- Observable external calls made by a dispatch step.  `sleep` would be a
`time.sleep(...)` call; the other constructors are the checksum-generator
invocations. -/
inductive VEvent where
  | sleep (secs : Rat)
  | local_chunk_hash (path : String) (offset size : Nat)
  | local_file_hash (path : String)
  | remote_chunk_hashes (path : String) (chunk_count : Nat)
  | remote_file_hash (path : String)
deriving DecidableEq, Repr

/-- `VEvent.isSleep`. -/
def VEvent.isSleep : VEvent → Bool
  | VEvent.sleep _ => true
  | _ => false

/-- Oracle environment for the dispatch's I/O: local chunk hashing, local
whole-file hashing, remote batched chunk hashing, remote whole-file
hashing.  An `Except.error` models the corresponding `ChecksumError`. -/
structure Env where
  local_chunk : String → Nat → Nat → Except Unit String
  local_file : String → Except Unit String
  remote_chunks : String → List ChunkInfo → Except Unit (List String)
  remote_file : String → Except Unit String

/-- Construction-time parameters of `ValidationDispatch`. -/
structure DispatchCtx where
  cfg : ValidationConfig
  local_base_path : String
  remote_base_path : String

/-- The mutable state of a `ValidationDispatch`. -/
structure DispatchState where
  cm : CMap
  pending_files : List ValidationCommand := []
  active_file : Option String := none
  active_remote_path : Option String := none
  active_inline : Bool := false
  inline_local_sizes : String → Option Nat := fun _ => none
  pending_redownloads : List CorruptChunkRedownload := []
  net_stats : NetworkStats := {}

/-- A freshly constructed dispatch. -/
def DispatchState.init : DispatchState := { cm := CMap.empty }

/-- Result of one dispatch entry point: the new state, the optional
completion result, the redownload requests appended during the call, the
external calls made, and the path whose chunk layout was (re)created. -/
structure TickOut where
  state : DispatchState
  result : Option ValidationCompletedResult
  emitted : List CorruptChunkRedownload
  events : List VEvent
  created : Option String

namespace ValidationDispatch

/-- `ValidationDispatch.queue_validation`. -/
def queue_validation (ctx : DispatchCtx) (cmd : ValidationCommand)
    (s : DispatchState) : DispatchState :=
  let s :=
    if cmd.inline then
      let lp := pyJoin ctx.local_base_path cmd.local_path
      { s with inline_local_sizes := fun q => if q = lp then some 0 else s.inline_local_sizes q }
    else s
  { s with pending_files := s.pending_files ++ [cmd] }

/-- `ValidationDispatch.update_local_size`: only updates keys already
present. -/
def update_local_size (ctx : DispatchCtx) (local_path : String) (local_size : Nat)
    (s : DispatchState) : DispatchState :=
  let abs_path := pyJoin ctx.local_base_path local_path
  match s.inline_local_sizes abs_path with
  | none => s
  | some _ =>
    { s with inline_local_sizes := fun q =>
        if q = abs_path then some local_size else s.inline_local_sizes q }

/-- `ValidationDispatch.resume_chunk`: reset the chunk to PENDING for
re-hashing. -/
def resume_chunk (ctx : DispatchCtx) (local_path : String) (chunk_index : Nat)
    (s : DispatchState) : DispatchState :=
  let abs_path := pyJoin ctx.local_base_path local_path
  { s with cm := (ChunkManager.reset_chunk s.cm abs_path chunk_index).2 }

/-- `ValidationDispatch.pop_redownloads`: return and clear the pending
redownload requests. -/
def pop_redownloads (s : DispatchState) :
    List CorruptChunkRedownload × DispatchState :=
  (s.pending_redownloads, { s with pending_redownloads := [] })

/-- Direct `validation_info.chunks[chunk.index].mark_corrupt()` (the
source mutates the live `ChunkInfo` object, bypassing the manager; a Lean
no-op out of range corresponds to the `IndexError` case, which cannot
arise in reachable states where `index` equals the list position). -/
def mark_corrupt_direct (cm : CMap) (p : String) (i : Nat) : CMap :=
  match cm p with
  | none => cm
  | some info =>
    match info.chunks.get? i with
    | none => cm
    | some c => ChunkManager.setChunk cm p info i c.mark_corrupt

/-- The `for i, checksum in enumerate(remote_checksums)` loop of
`_start_validation`, updating remote checksums chunk by chunk. -/
def apply_remote_checksums (cm : CMap) (p : String) (checksums : List String) : CMap :=
  (checksums.enum.foldl
    (fun acc ic => (ChunkManager.update_chunk_checksum acc p ic.1 none (some ic.2)).2) cm)

/-- The retryable-chunk loop of `_continue_validation`: for each chunk,
`mark_chunk_downloading` then (when a remote path is active) append a
`CorruptChunkRedownload`.  Returns the updated manager state and the
appended requests in order. -/
def mark_and_queue (cm : CMap) (lp : String) (rp : Option String) :
    List ChunkInfo → CMap × List CorruptChunkRedownload
  | [] => (cm, [])
  | c :: rest =>
    let cm1 := (ChunkManager.mark_chunk_downloading cm lp c.index).2
    let here : List CorruptChunkRedownload :=
      match rp with
      | some r =>
        [{ local_path := lp, remote_path := r, chunk_index := c.index,
           offset := c.offset, size := c.size }]
      | none => []
    let (cm2, rest_emitted) := mark_and_queue cm1 lp rp rest
    (cm2, here ++ rest_emitted)

/-- Status read back for the adaptive-sizer update:
`validation_info.chunks[chunk.index].status` after `validate_chunk` ran
(the source reads the live, just-updated object). -/
def chunk_status_after (cm : CMap) (p : String) (i : Nat) : ChunkStatus :=
  match cm p with
  | none => ChunkStatus.PENDING
  | some info =>
    match info.chunks.get? i with
    | none => ChunkStatus.PENDING
    | some c => c.status

/-- The `if pending_chunks:` body of `_continue_validation`: hash one
chunk locally, record the checksum, validate it, feed the result to the
adaptive sizer; a `ChecksumError` instead marks the chunk corrupt
directly. -/
def hash_pending_chunk (env : Env) (s : DispatchState) (lp : String)
    (c : ChunkInfo) : TickOut :=
  match env.local_chunk lp c.offset c.size with
  | Except.ok h =>
    let cm1 := (ChunkManager.update_chunk_checksum s.cm lp c.index (some h) none).2
    let cm2 := (ChunkManager.validate_chunk cm1 lp c.index).2
    let ok := chunk_status_after cm2 lp c.index = ChunkStatus.VALID
    let ns := AdaptiveChunkSizer.update_network_stats_success s.net_stats ok
    ⟨{ s with cm := cm2, net_stats := ns }, none, [],
      [VEvent.local_chunk_hash lp c.offset c.size], none⟩
  | Except.error _ =>
    ⟨{ s with cm := mark_corrupt_direct s.cm lp c.index }, none, [],
      [VEvent.local_chunk_hash lp c.offset c.size], none⟩

/-- The tail of `_continue_validation` once no chunk is actionable: wait
in inline mode while PENDING chunks remain, otherwise collect CORRUPT
chunks and either complete as invalid (no retryable chunk), emit
redownload requests for the retryable ones (marking them DOWNLOADING), or
complete as valid when no chunk is CORRUPT. -/
def finish_or_retry (ctx : DispatchCtx) (s : DispatchState) (lp : String) : TickOut :=
  if s.active_inline ∧ ChunkManager.get_pending_chunks s.cm lp ≠ [] then
    ⟨s, none, [], [], none⟩
  else
    let corrupt := ChunkManager.get_corrupt_chunks s.cm lp
    match corrupt with
    | [] =>
      let cm1 := (ChunkManager.mark_file_complete s.cm lp true).2
      let cm2 := (ChunkManager.remove_file cm1 lp).2
      ⟨{ s with
          cm := cm2
          active_file := none
          active_remote_path := none
          inline_local_sizes := fun q => if q = lp then none else s.inline_local_sizes q },
        some { name := pyBasename lp, file_path := lp,
               is_valid := true, corrupt_chunks := [] },
        [], [], none⟩
    | _ :: _ =>
      let retryable := corrupt.filter fun c =>
        ChunkManager.can_retry_chunk ctx.cfg s.cm lp c.index
      if retryable = [] then
        let cm1 := (ChunkManager.mark_file_complete s.cm lp false).2
        let cm2 := (ChunkManager.remove_file cm1 lp).2
        ⟨{ s with
            cm := cm2
            active_file := none
            active_remote_path := none
            inline_local_sizes := fun q => if q = lp then none else s.inline_local_sizes q },
          some { name := pyBasename lp, file_path := lp, is_valid := false,
                 corrupt_chunks := corrupt.map ChunkInfo.index },
          [], [], none⟩
      else
        let me := mark_and_queue s.cm lp s.active_remote_path retryable
        ⟨{ s with
            cm := me.1
            pending_redownloads := s.pending_redownloads ++ me.2 },
          none, me.2, [], none⟩

/-- The full-file-checksum fallback branch of `_continue_validation`. -/
def full_file_fallback (env : Env) (s : DispatchState) (lp : String) : TickOut :=
  match env.local_file lp with
  | Except.ok h =>
    let cm1 := (ChunkManager.set_full_file_checksums s.cm lp (some h) none).2
    let vr := ChunkManager.validate_full_file cm1 lp
    let cm3 := (ChunkManager.remove_file vr.2 lp).2
    ⟨{ s with cm := cm3, active_file := none },
      some { name := pyBasename lp, file_path := lp,
             is_valid := vr.1.getD false, corrupt_chunks := [] },
      [], [VEvent.local_file_hash lp], none⟩
  | Except.error _ =>
    let cm1 := (ChunkManager.remove_file s.cm lp).2
    ⟨{ s with cm := cm1, active_file := none },
      some { name := pyBasename lp, file_path := lp,
             is_valid := false, corrupt_chunks := [] },
      [], [VEvent.local_file_hash lp], none⟩

/-- The pending-chunk selection of `_continue_validation`: all PENDING
chunks, restricted in inline mode to those whose bytes are fully on disk
(`end_offset ≤ current local size`). -/
def actionable_pending (s : DispatchState) (lp : String) : List ChunkInfo :=
  let pending0 := ChunkManager.get_pending_chunks s.cm lp
  if s.active_inline ∧ pending0 ≠ [] then
    pending0.filter fun c => c.end_offset ≤ (s.inline_local_sizes lp).getD 0
  else pending0

/-- `ValidationDispatch._continue_validation`.  Branch structure follows
the source: full-file fallback first, then one pending chunk hashed per
tick (restricted to fully-downloaded chunks in inline mode), then the
inline wait, then corrupt-chunk retry emission, else completion.
Truthiness note: the `if validation_info.full_file_checksum and not
validation_info.local_full_checksum` test is modelled with
`isSome`/`= none`; checksum strings in the repository are whitespace-free
tokens or hex digests, never the empty (falsy) string. -/
def continue_validation (ctx : DispatchCtx) (env : Env) (s : DispatchState) : TickOut :=
  match s.active_file with
  | none => ⟨s, none, [], [], none⟩
  | some lp =>
    match s.cm lp with
    | none => ⟨{ s with active_file := none }, none, [], [], none⟩
    | some info =>
      if info.full_file_checksum.isSome ∧ info.local_full_checksum = none then
        full_file_fallback env s lp
      else
        match actionable_pending s lp with
        | c :: _ => hash_pending_chunk env s lp c
        | [] => finish_or_retry ctx s lp

/-- `ValidationDispatch._start_validation`: compute the adaptive chunk
size, create the chunk layout, fetch remote checksums (falling back to the
whole-file remote hash, then to an invalid completion), and finish the
tick via `_continue_validation`.  There is no settle delay anywhere in
this method: no `sleep` event is ever produced. -/
def start_validation (ctx : DispatchCtx) (env : Env) (cmd : ValidationCommand)
    (s : DispatchState) : TickOut :=
  let lp := pyJoin ctx.local_base_path cmd.local_path
  let rp := pyJoin ctx.remote_base_path cmd.remote_path
  let chunk_size := AdaptiveChunkSizer.calculate_chunk_size ctx.cfg s.net_stats cmd.file_size
  let cm1 := (ChunkManager.create_chunks ctx.cfg s.cm lp cmd.file_size (some chunk_size)).2
  let s1 := { s with
              cm := cm1
              active_file := some lp
              active_remote_path := some rp
              active_inline := cmd.inline }
  match ChunkManager.get_validation_info s1.cm lp with
  | none =>
    let t := continue_validation ctx env s1
    { t with created := some lp }
  | some info =>
    match env.remote_chunks rp info.chunks with
    | Except.ok checksums =>
      let s2 := { s1 with cm := apply_remote_checksums s1.cm lp checksums }
      let t := continue_validation ctx env s2
      { t with events := VEvent.remote_chunk_hashes rp info.chunks.length :: t.events,
               created := some lp }
    | Except.error _ =>
      match env.remote_file rp with
      | Except.ok full =>
        let s2 := { s1 with cm := (ChunkManager.set_full_file_checksums s1.cm lp none (some full)).2 }
        let t := continue_validation ctx env s2
        { t with events := [VEvent.remote_chunk_hashes rp info.chunks.length,
                            VEvent.remote_file_hash rp] ++ t.events,
                 created := some lp }
      | Except.error _ =>
        { state := { s1 with cm := (ChunkManager.remove_file s1.cm lp).2, active_file := none },
          result := some { name := cmd.file_name, file_path := lp,
                           is_valid := false, corrupt_chunks := [] },
          emitted := [],
          events := [VEvent.remote_chunk_hashes rp info.chunks.length,
                     VEvent.remote_file_hash rp],
          created := some lp }

/-- `ValidationDispatch.process_next`. -/
def process_next (ctx : DispatchCtx) (env : Env) (s : DispatchState) : TickOut :=
  match s.active_file, s.pending_files with
  | none, cmd :: rest => start_validation ctx env cmd { s with pending_files := rest }
  | some _, _ => continue_validation ctx env s
  | none, [] => ⟨s, none, [], [], none⟩

end ValidationDispatch

/-! ## Validation-process IPC queues and the controller tick
(`validation_process.py` lines 381-587, `controller.py`)

`ValidationProcess` relays between the dispatch and the controller through
multiprocessing queues, modelled as FIFO lists.  The controller's
`process()` tick interacts with the validation process only through
`validate(...)` (queueing commands: the VALIDATE command handler and the
auto-validate-on-download path) and, inside
`__process_validation_results`, `pop_latest_statuses()` and
`pop_completed()`.  No byte-range downloader API exists in the repository
and the controller never calls `pop_redownloads()` or `resume_chunk()`. -/

/-- `ValidationStatusResult` (timestamp omitted): mapping of in-progress
files to their validation info. -/
structure ValidationStatusResult where
  file_statuses : List (String × FileValidationInfo)
deriving DecidableEq, Repr

/-- The five multiprocessing queues owned by `ValidationProcess`. -/
structure ValidationProcessQueues where
  command_queue : List ValidationCommand := []
  resume_chunk_queue : List ResumeChunkCommand := []
  status_result_queue : List ValidationStatusResult := []
  completed_result_queue : List ValidationCompletedResult := []
  redownload_result_queue : List CorruptChunkRedownload := []
deriving Repr

namespace ValidationProcess

/-- `ValidationProcess.validate`: enqueue a `ValidationCommand`. -/
def validate (q : ValidationProcessQueues) (cmd : ValidationCommand) :
    ValidationProcessQueues :=
  { q with command_queue := q.command_queue ++ [cmd] }

/-- `ValidationProcess.resume_chunk`: enqueue a `ResumeChunkCommand`. -/
def resume_chunk (q : ValidationProcessQueues) (local_path : String)
    (chunk_index : Nat) : ValidationProcessQueues :=
  { q with resume_chunk_queue :=
      q.resume_chunk_queue ++ [{ local_path := local_path, chunk_index := chunk_index }] }

/-- `ValidationProcess.pop_latest_statuses`: drain the status queue,
keeping only the most recent entry. -/
def pop_latest_statuses (q : ValidationProcessQueues) :
    Option ValidationStatusResult × ValidationProcessQueues :=
  (q.status_result_queue.getLast?, { q with status_result_queue := [] })

/-- `ValidationProcess.pop_completed`: drain the completed queue. -/
def pop_completed (q : ValidationProcessQueues) :
    List ValidationCompletedResult × ValidationProcessQueues :=
  (q.completed_result_queue, { q with completed_result_queue := [] })

/-- `ValidationProcess.pop_redownloads`: drain the redownload queue.
Present in the repository, but never invoked by the controller. -/
def pop_redownloads (q : ValidationProcessQueues) :
    List CorruptChunkRedownload × ValidationProcessQueues :=
  (q.redownload_result_queue, { q with redownload_result_queue := [] })

end ValidationProcess

namespace Controller

/-- `Controller.__process_validation_results`: pop the latest statuses and
the completed results (model-file bookkeeping elided — it touches no
validation-process queue).  These are the only two queue reads the method
performs: in particular it never pops the redownload queue. -/
def process_validation_results (q : ValidationProcessQueues) :
    ValidationProcessQueues × Option ValidationStatusResult ×
      List ValidationCompletedResult :=
  let st := ValidationProcess.pop_latest_statuses q
  let done := ValidationProcess.pop_completed st.2
  (done.2, st.1, done.1)

/-- The validation-process-facing effects of one `Controller.process()`
tick: the `validate(...)` calls issued while processing commands and model
updates (`cmds`), followed by `__process_validation_results` (invoked at
the end of `__update_model` when validation is enabled).  Verified against
the source: no other `ValidationProcess` method is called during a tick
(exception propagation aside), and the `Lftp` downloader driver exposes no
byte-range fetch that could serve a redownload request. -/
def process_tick_validation (q : ValidationProcessQueues)
    (cmds : List ValidationCommand) : ValidationProcessQueues :=
  (process_validation_results (cmds.foldl ValidationProcess.validate q)).1

end Controller

/-! ## Trace semantics for the dispatch (for the retry-bound invariant)

A ghost counter `emit : String → Nat → Nat` counts, per file path and
chunk index, the redownload requests emitted since the chunk layout for
that path was last created (`create_chunks` replaces the tracked
`ChunkInfo` objects wholesale, beginning a fresh lifetime, so the counter
resets for that path). -/

/-- Add one per emitted request matching the path and chunk index. -/
def bumpEmit (e : String → Nat → Nat) (l : List CorruptChunkRedownload) :
    String → Nat → Nat :=
  fun p i => e p i + (l.filter fun r => r.local_path = p ∧ r.chunk_index = i).length

/-- Reset the counters of a path whose chunk layout was recreated. -/
def resetEmit : Option String → (String → Nat → Nat) → String → Nat → Nat
  | none, e => e
  | some p, e => fun q j => if q = p then 0 else e q j

/-- Dispatch state with the ghost per-chunk emission counters. -/
structure GState where
  d : DispatchState
  emit : String → Nat → Nat

/-- The initial dispatch state with zeroed counters. -/
def GState.init : GState := ⟨DispatchState.init, fun _ _ => 0⟩

/-- One step of the validation worker: a `process_next` tick under an
arbitrary environment, or one of the inbound-queue commands
(`queue_validation`, `update_local_size`, `resume_chunk`), or
`pop_redownloads`.  This is exactly the set of operations
`ValidationProcess.run_loop` performs on the dispatch. -/
inductive VStep (ctx : DispatchCtx) : GState → GState → Prop where
  | tick (env : Env) (g : GState) :
      VStep ctx g
        ⟨(ValidationDispatch.process_next ctx env g.d).state,
          bumpEmit
            (resetEmit (ValidationDispatch.process_next ctx env g.d).created g.emit)
            (ValidationDispatch.process_next ctx env g.d).emitted⟩
  | queue (cmd : ValidationCommand) (g : GState) :
      VStep ctx g ⟨ValidationDispatch.queue_validation ctx cmd g.d, g.emit⟩
  | size_update (p : String) (n : Nat) (g : GState) :
      VStep ctx g ⟨ValidationDispatch.update_local_size ctx p n g.d, g.emit⟩
  | resume (p : String) (i : Nat) (g : GState) :
      VStep ctx g ⟨ValidationDispatch.resume_chunk ctx p i g.d, g.emit⟩
  | pop (g : GState) :
      VStep ctx g ⟨(ValidationDispatch.pop_redownloads g.d).2, g.emit⟩

/-- States reachable from a fresh dispatch. -/
def DReachable (ctx : DispatchCtx) (g : GState) : Prop :=
  Relation.ReflTransGen (VStep ctx) GState.init g

/-- The inductive invariant for the retry bound: for every tracked file,
chunk indices equal list positions, the per-chunk emission counter is at
most the chunk's `retry_count`, and `retry_count` never exceeds
`max_retries`. -/
def ChunkInv (cfg : ValidationConfig) (g : GState) : Prop :=
  ∀ p info, g.d.cm p = some info →
    (∀ i, ∀ h : i < info.chunks.length, (info.chunks.get ⟨i, h⟩).index = i) ∧
    ∀ c ∈ info.chunks,
      g.emit p c.index ≤ c.retry_count ∧ c.retry_count ≤ cfg.max_retries

/-- `cm'` refines `cm` without touching chunk layout or retry counters:
every file tracked after the operation was tracked before, with the same
number of chunks and pointwise-equal `index` and `retry_count` fields.
All chunk-manager operations except `create_chunks` and
`mark_chunk_downloading` have this property. -/
def ChunkShape (cm cm' : CMap) : Prop :=
  ∀ q info', cm' q = some info' →
    ∃ info, cm q = some info ∧ info'.chunks.length = info.chunks.length ∧
      ∀ j (hj : j < info'.chunks.length) (hj' : j < info.chunks.length),
        (info'.chunks.get ⟨j, hj⟩).index = (info.chunks.get ⟨j, hj'⟩).index ∧
        (info'.chunks.get ⟨j, hj⟩).retry_count = (info.chunks.get ⟨j, hj'⟩).retry_count

/-! ## A concrete run exhibiting the premature-valid-completion behaviour

One file of a single byte whose remote chunk digest (`"a0"`) differs from
the local one (`"b0"`): tick 1 hashes the chunk and marks it CORRUPT,
tick 2 marks it DOWNLOADING and emits the redownload request, tick 3 runs
before any `resume_chunk` arrives. -/

/-- Environment in which every local hash is `"b0"` and every remote hash
is `"a0"`. -/
def env0 : Env :=
  { local_chunk := fun _ _ _ => Except.ok "b0"
    local_file := fun _ => Except.ok "b0"
    remote_chunks := fun _ cs => Except.ok (cs.map fun _ => "a0")
    remote_file := fun _ => Except.ok "a0" }

/-- A dispatch over the default configuration. -/
def ctx0 : DispatchCtx :=
  { cfg := {}, local_base_path := "/l", remote_base_path := "/r" }

/-- A non-inline validation command for a one-byte file `f`. -/
def cmd0 : ValidationCommand :=
  { file_name := "f", local_path := "f", remote_path := "f", file_size := 1 }

/-- State after `queue_validation(cmd0)` on a fresh dispatch. -/
def s0a : DispatchState := ValidationDispatch.queue_validation ctx0 cmd0 DispatchState.init

/-- Tick 1: start validation; the single chunk hashes corrupt. -/
def tick1 : TickOut := ValidationDispatch.process_next ctx0 env0 s0a

/-- Tick 2: the corrupt chunk is marked DOWNLOADING and a redownload
request is emitted. -/
def tick2 : TickOut := ValidationDispatch.process_next ctx0 env0 tick1.state

/-- Tick 3: no resume has arrived, yet the run completes. -/
def tick3 : TickOut := ValidationDispatch.process_next ctx0 env0 tick2.state

/-- A shell oracle answering every command with one checksum line. -/
def shellW : String → Except Unit String := fun _ => Except.ok "abc -"

/-- A single five-byte chunk. -/
def chunkW : ChunkInfo := { index := 0, offset := 0, size := 5 }

/-- The tracked state of `/l/f` after tick 1: its single chunk hashed and
found CORRUPT. -/
def info1 : FileValidationInfo :=
  { file_path := "/l/f", file_size := 1, algorithm := ValidationAlgorithm.MD5,
    chunks := [{ index := 0, offset := 0, size := 1, remote_checksum := some "a0",
                 local_checksum := some "b0", status := ChunkStatus.CORRUPT,
                 retry_count := 0 }] }

/-- The tracked state of `/l/f` after tick 2: the chunk marked
DOWNLOADING with `retry_count = 1`, its redownload requested. -/
def info2 : FileValidationInfo :=
  { file_path := "/l/f", file_size := 1, algorithm := ValidationAlgorithm.MD5,
    chunks := [{ index := 0, offset := 0, size := 1, remote_checksum := some "a0",
                 local_checksum := some "b0", status := ChunkStatus.DOWNLOADING,
                 retry_count := 1 }] }

/-- The redownload request emitted in tick 2. -/
def rd0 : CorruptChunkRedownload :=
  { local_path := "/l/f", remote_path := "/r/f", chunk_index := 0,
    offset := 0, size := 1 }

/-- A concrete single-chunk tracked file used to instantiate the
chunk-manager theorems. -/
def infoW : FileValidationInfo :=
  { file_path := "x", file_size := 5,
    chunks := [{ index := 0, offset := 0, size := 5,
                 remote_checksum := some "r", local_checksum := some "l",
                 status := ChunkStatus.CORRUPT, retry_count := 1 }] }

/-- A manager tracking exactly `infoW` under the key `"x"`. -/
def cmW : CMap := CMap.insert CMap.empty "x" infoW

/-! ## A concrete reachable state for the retry-bound invariant

Adaptive sizing is disabled so the run is integer-only; remote and local
digests agree, so the first worker tick hashes the single chunk VALID and
emits no redownload request. -/

/-- Dispatch context with adaptive sizing disabled (other settings
default). -/
def ctxR : DispatchCtx :=
  { cfg := { enable_adaptive_sizing := false }
    local_base_path := "/l"
    remote_base_path := "/r" }

/-- Environment answering every hash request with `"a0"`. -/
def envR : Env :=
  { local_chunk := fun _ _ _ => Except.ok "a0"
    local_file := fun _ => Except.ok "a0"
    remote_chunks := fun _ cs => Except.ok (cs.map fun _ => "a0")
    remote_file := fun _ => Except.ok "a0" }

/-- A one-byte non-inline file to validate. -/
def cmdR : ValidationCommand :=
  { file_name := "f", local_path := "f", remote_path := "f", file_size := 1 }

/-- Ghost state after queueing `cmdR` (emission counters still zero). -/
def gR1 : GState :=
  ⟨ValidationDispatch.queue_validation ctxR cmdR DispatchState.init, fun _ _ => 0⟩

/-- Ghost state after the first worker tick: the chunk of `/l/f` hashed
VALID. -/
def gR2 : GState :=
  ⟨(ValidationDispatch.process_next ctxR envR gR1.d).state,
    bumpEmit
      (resetEmit (ValidationDispatch.process_next ctxR envR gR1.d).created gR1.emit)
      (ValidationDispatch.process_next ctxR envR gR1.d).emitted⟩

/-- The tracked info of `/l/f` in `gR2`. -/
def infoR : FileValidationInfo :=
  { file_path := "/l/f", file_size := 1, algorithm := ValidationAlgorithm.MD5,
    chunks := [{ index := 0, offset := 0, size := 1, remote_checksum := some "a0",
                 local_checksum := some "a0", status := ChunkStatus.VALID,
                 retry_count := 0 }] }

/-! ## Theorems -/

theorem buildChunks_of_ge (cs fs fuel offset idx : Nat) (h : fs ≤ offset) :
    ChunkManager.buildChunks cs fs fuel offset idx = [] := by
  cases fuel with
  | zero => rfl
  | succ fuel => simp [ChunkManager.buildChunks, Nat.not_lt.mpr h]

theorem buildChunks_get? (cs fs : Nat) (hcs : 0 < cs) :
    ∀ (fuel offset idx : Nat), fs - offset ≤ fuel → ∀ (j : Nat),
      (ChunkManager.buildChunks cs fs fuel offset idx).get? j =
        if offset + j * cs < fs then
          some { index := idx + j, offset := offset + j * cs,
                 size := min cs (fs - (offset + j * cs)) }
        else none := by
  intro fuel
  induction fuel with
  | zero =>
    intro offset idx hle j
    have hge : fs ≤ offset := by omega
    rw [buildChunks_of_ge cs fs 0 offset idx hge]
    have : ¬ offset + j * cs < fs := by omega
    simp [this]
  | succ fuel ih =>
    intro offset idx hle j
    by_cases hof : offset < fs
    · have hunfold : ChunkManager.buildChunks cs fs (fuel + 1) offset idx =
          { index := idx, offset := offset, size := min cs (fs - offset) } ::
            ChunkManager.buildChunks cs fs fuel (offset + min cs (fs - offset)) (idx + 1) := by
        simp [ChunkManager.buildChunks, hof]
      rw [hunfold]
      cases j with
      | zero =>
        have hcond : offset + 0 * cs < fs := by omega
        simp [hcond] <;> omega
      | succ k =>
        have hrec := ih (offset + min cs (fs - offset)) (idx + 1) (by omega) k
        simp only [List.get?_cons_succ]
        rw [hrec]
        by_cases hmin : cs ≤ fs - offset
        · rw [Nat.min_eq_left hmin]
          have e1 : offset + cs + k * cs = offset + (k + 1) * cs := by ring
          have e2 : idx + 1 + k = idx + (k + 1) := by omega
          rw [e1, e2]
        · have hmr : min cs (fs - offset) = fs - offset := Nat.min_eq_right (by omega)
          rw [hmr]
          have h1 : ¬ offset + (fs - offset) + k * cs < fs := by omega
          have h2 : ¬ offset + (k + 1) * cs < fs := by
            have : cs * 1 ≤ cs * (k + 1) := Nat.mul_le_mul_left cs (by omega)
            have : cs ≤ (k + 1) * cs := by
              calc cs = cs * 1 := by ring
              _ ≤ cs * (k + 1) := this
              _ = (k + 1) * cs := by ring
            omega
          simp [h1, h2]
    · rw [buildChunks_of_ge cs fs (fuel + 1) offset idx (by omega)]
      have : ¬ offset + j * cs < fs := by omega
      simp [this]

theorem buildChunks_length (cs fs : Nat) (hcs : 0 < cs) :
    ∀ (fuel offset idx : Nat), fs - offset ≤ fuel →
      (ChunkManager.buildChunks cs fs fuel offset idx).length =
        (fs - offset + cs - 1) / cs := by
  intro fuel
  induction fuel with
  | zero =>
    intro offset idx hle
    have hge : fs ≤ offset := by omega
    rw [buildChunks_of_ge cs fs 0 offset idx hge]
    have h0 : fs - offset = 0 := by omega
    rw [h0]
    simp only [List.length_nil, Nat.zero_add]
    exact (Nat.div_eq_of_lt (by omega)).symm
  | succ fuel ih =>
    intro offset idx hle
    by_cases hof : offset < fs
    · have hunfold : ChunkManager.buildChunks cs fs (fuel + 1) offset idx =
          { index := idx, offset := offset, size := min cs (fs - offset) } ::
            ChunkManager.buildChunks cs fs fuel (offset + min cs (fs - offset)) (idx + 1) := by
        simp [ChunkManager.buildChunks, hof]
      rw [hunfold, List.length_cons,
        ih (offset + min cs (fs - offset)) (idx + 1) (by omega)]
      by_cases hmin : cs ≤ fs - offset
      · rw [Nat.min_eq_left hmin]
        have e1 : fs - (offset + cs) + cs - 1 = fs - offset - 1 := by omega
        have e2 : fs - offset + cs - 1 = (fs - offset - 1) + cs := by omega
        rw [e1, e2, Nat.add_div_right _ hcs]
      · have hmr : min cs (fs - offset) = fs - offset := Nat.min_eq_right (by omega)
        rw [hmr]
        have e1 : fs - (offset + (fs - offset)) = 0 := by omega
        have e2 : fs - (offset + (fs - offset)) + cs - 1 = cs - 1 := by omega
        rw [e2, Nat.div_eq_of_lt (by omega : cs - 1 < cs)]
        have e3 : fs - offset + cs - 1 = (fs - offset - 1) + cs := by omega
        rw [e3, Nat.add_div_right _ hcs,
          Nat.div_eq_of_lt (by omega : fs - offset - 1 < cs)]
    · rw [buildChunks_of_ge cs fs (fuel + 1) offset idx (by omega)]
      have h0 : fs - offset = 0 := by omega
      rw [h0]
      simp only [List.length_nil, Nat.zero_add]
      exact (Nat.div_eq_of_lt (by omega)).symm

theorem buildChunks_sum (cs fs : Nat) (hcs : 0 < cs) :
    ∀ (fuel offset idx : Nat), fs - offset ≤ fuel →
      ((ChunkManager.buildChunks cs fs fuel offset idx).map ChunkInfo.size).sum =
        fs - offset := by
  intro fuel
  induction fuel with
  | zero =>
    intro offset idx hle
    rw [buildChunks_of_ge cs fs 0 offset idx (by omega)]
    simp
    omega
  | succ fuel ih =>
    intro offset idx hle
    by_cases hof : offset < fs
    · have hunfold : ChunkManager.buildChunks cs fs (fuel + 1) offset idx =
          { index := idx, offset := offset, size := min cs (fs - offset) } ::
            ChunkManager.buildChunks cs fs fuel (offset + min cs (fs - offset)) (idx + 1) := by
        simp [ChunkManager.buildChunks, hof]
      rw [hunfold, List.map_cons, List.sum_cons,
        ih (offset + min cs (fs - offset)) (idx + 1) (by omega)]
      simp only []
      omega
    · rw [buildChunks_of_ge cs fs (fuel + 1) offset idx (by omega)]
      simp
      omega

theorem buildChunks_fresh (cs fs : Nat) :
    ∀ (fuel offset idx : Nat) (c : ChunkInfo),
      c ∈ ChunkManager.buildChunks cs fs fuel offset idx →
      c.status = ChunkStatus.PENDING ∧ c.retry_count = 0 ∧
        c.remote_checksum = none ∧ c.local_checksum = none := by
  intro fuel
  induction fuel with
  | zero => intro offset idx c hc; simp [ChunkManager.buildChunks] at hc
  | succ fuel ih =>
    intro offset idx c hc
    by_cases hof : offset < fs
    · have hunfold : ChunkManager.buildChunks cs fs (fuel + 1) offset idx =
          { index := idx, offset := offset, size := min cs (fs - offset) } ::
            ChunkManager.buildChunks cs fs fuel (offset + min cs (fs - offset)) (idx + 1) := by
        simp [ChunkManager.buildChunks, hof]
      rw [hunfold] at hc
      rcases List.mem_cons.mp hc with h | h
      · subst h; exact ⟨rfl, rfl, rfl, rfl⟩
      · exact ih _ _ c h
    · rw [buildChunks_of_ge cs fs (fuel + 1) offset idx (by omega)] at hc
      simp at hc
theorem list_get?_set_self {α : Type} (l : List α) (i : Nat) (a : α)
    (h : i < l.length) : (l.set i a).get? i = some a := by
  induction l generalizing i with
  | nil => simp at h
  | cons x xs ih =>
    cases i with
    | zero => simp
    | succ k =>
      simp only [List.set, List.get?_cons_succ]
      exact ih k (by simpa using h)

theorem list_get?_set_other {α : Type} (l : List α) (i j : Nat) (a : α)
    (h : j ≠ i) : (l.set i a).get? j = l.get? j := by
  induction l generalizing i j with
  | nil => simp
  | cons x xs ih =>
    cases i with
    | zero =>
      cases j with
      | zero => exact absurd rfl h
      | succ k => simp
    | succ m =>
      cases j with
      | zero => simp
      | succ k =>
        simp only [List.set, List.get?_cons_succ]
        exact ih m k (fun hk => h (by omega))

theorem setChunk_self (cm : CMap) (p : String) (info : FileValidationInfo)
    (i : Nat) (c : ChunkInfo) :
    ChunkManager.setChunk cm p info i c p = some { info with chunks := info.chunks.set i c } := by
  unfold ChunkManager.setChunk CMap.insert
  simp

theorem setChunk_other (cm : CMap) (p : String) (info : FileValidationInfo)
    (i : Nat) (c : ChunkInfo) (q : String) (h : q ≠ p) :
    ChunkManager.setChunk cm p info i c q = cm q := by
  unfold ChunkManager.setChunk CMap.insert
  simp [h]

/-- C5 (amended): for every file path, every `file_size ≥ 1` and every
requested chunk size, where the effective clamped chunk size is obtained
by first replacing a missing or zero request by `default_chunk_size` (the
source's `chunk_size or default`) and then clamping to
`[min_chunk_size, max_chunk_size]`, `create_chunks` produces
`⌈file_size / clamped⌉` chunks, all PENDING, starting at offset 0,
contiguous, summing to `file_size`, all of size `clamped` except a
possibly shorter last chunk. -/
theorem create_chunks_layout (cfg : ValidationConfig) (cm : CMap) (p : String)
    (fs : Nat) (req : Option Int) (clamped : Nat)
    (hok : cfg.ok) (hfs : 1 ≤ fs)
    (hcl : clamped = ChunkManager.effective_chunk_size cfg req) :
    ((ChunkManager.create_chunks cfg cm p fs req).1).chunks.length =
        (fs + clamped - 1) / clamped ∧
    (∀ c ∈ ((ChunkManager.create_chunks cfg cm p fs req).1).chunks,
        c.status = ChunkStatus.PENDING) ∧
    (∀ c, ((ChunkManager.create_chunks cfg cm p fs req).1).chunks.get? 0 = some c →
        c.offset = 0) ∧
    (∀ j c c', ((ChunkManager.create_chunks cfg cm p fs req).1).chunks.get? j = some c →
        ((ChunkManager.create_chunks cfg cm p fs req).1).chunks.get? (j + 1) = some c' →
        c'.offset = c.offset + c.size) ∧
    ((((ChunkManager.create_chunks cfg cm p fs req).1).chunks.map ChunkInfo.size).sum = fs) ∧
    (∀ j c, ((ChunkManager.create_chunks cfg cm p fs req).1).chunks.get? j = some c →
        j + 1 < ((ChunkManager.create_chunks cfg cm p fs req).1).chunks.length →
        c.size = clamped) := by
  have hmin : cfg.min_chunk_size ≤ clamped := by
    rw [hcl]
    unfold ChunkManager.effective_chunk_size
    calc cfg.min_chunk_size = ((cfg.min_chunk_size : Int)).toNat := by simp
    _ ≤ _ := Int.toNat_le_toNat (le_max_left _ _)
  have h0 : 0 < clamped := lt_of_lt_of_le hok.1 hmin
  have hactual : ((ChunkManager.create_chunks cfg cm p fs req).1).chunks =
      ChunkManager.buildChunks clamped fs fs 0 0 := by
    rw [hcl]; rfl
  have hget := buildChunks_get? clamped fs h0 fs 0 0 (by omega)
  refine ⟨?_, ?_, ?_, ?_, ?_, ?_⟩
  · rw [hactual, buildChunks_length clamped fs h0 fs 0 0 (by omega)]
    congr 1
  · intro c hc
    rw [hactual] at hc
    exact (buildChunks_fresh clamped fs fs 0 0 c hc).1
  · intro c hc
    rw [hactual, hget 0] at hc
    have hcond : 0 + 0 * clamped < fs := by omega
    rw [if_pos hcond] at hc
    injection hc with hc
    subst hc
    simp
  · intro j c c' hc hc'
    rw [hactual, hget j] at hc
    rw [hactual, hget (j + 1)] at hc'
    by_cases h1 : 0 + j * clamped < fs
    · rw [if_pos h1] at hc
      by_cases h2 : 0 + (j + 1) * clamped < fs
      · rw [if_pos h2] at hc'
        injection hc with hc
        injection hc' with hc'
        subst hc; subst hc'
        have hm : (j + 1) * clamped = j * clamped + clamped := by ring
        simp only [hm] at h2 ⊢
        omega
      · rw [if_neg h2] at hc'
        simp at hc'
    · rw [if_neg h1] at hc
      simp at hc
  · rw [hactual, buildChunks_sum clamped fs h0 fs 0 0 (by omega)]
    omega
  · intro j c hc hlen
    rw [hactual, hget j] at hc
    rw [hactual, buildChunks_length clamped fs h0 fs 0 0 (by omega)] at hlen
    by_cases h1 : 0 + j * clamped < fs
    · rw [if_pos h1] at hc
      injection hc with hc
      subst hc
      have e1 : fs - 0 + clamped - 1 = (fs - 1) + clamped := by omega
      rw [e1, Nat.add_div_right _ h0] at hlen
      have hj : j + 1 ≤ (fs - 1) / clamped := by omega
      have h2 : (j + 1) * clamped ≤ ((fs - 1) / clamped) * clamped :=
        Nat.mul_le_mul_right clamped hj
      have h3 : ((fs - 1) / clamped) * clamped ≤ fs - 1 := Nat.div_mul_le_self _ _
      have hm : (j + 1) * clamped = j * clamped + clamped := by ring
      rw [hm] at h2
      simp only []
      omega
    · rw [if_neg h1] at hc
      simp at hc

/-- C5 counterexample: with config `min=2, default=4, max=8`, file size 4
and an explicitly requested chunk size of 0, the code falls back to the
default (4) and produces 1 chunk, whereas clamping the request 0 to
`[min, max]` gives 2 and the claim predicts `⌈4/2⌉ = 2` chunks. -/
theorem create_chunks_zero_request_counterexample :
    ({ min_chunk_size := 2, default_chunk_size := 4, max_chunk_size := 8 } :
      ValidationConfig).ok ∧
    (1 : Nat) ≤ 4 ∧
    (ChunkManager.create_chunks
      { min_chunk_size := 2, default_chunk_size := 4, max_chunk_size := 8 }
      CMap.empty "p" 4 (some 0)).1.chunks.length = 1 ∧
    (max (2 : Int) (min (0 : Int) (8 : Int))).toNat = 2 ∧
    (4 + (max (2 : Int) (min (0 : Int) (8 : Int))).toNat - 1) /
        (max (2 : Int) (min (0 : Int) (8 : Int))).toNat = 2 ∧
    (ChunkManager.create_chunks
      { min_chunk_size := 2, default_chunk_size := 4, max_chunk_size := 8 }
      CMap.empty "p" 4 (some 0)).1.chunks.length ≠
      (4 + (max (2 : Int) (min (0 : Int) (8 : Int))).toNat - 1) /
        (max (2 : Int) (min (0 : Int) (8 : Int))).toNat := by
  refine ⟨by decide, by decide, by decide, by decide, by decide, by decide⟩

/-- C5 witness: a concrete instantiation of `create_chunks_layout`
(config `min=2, default=4, max=8`, file size 5, requested chunk size 3,
clamped size 3: two chunks of sizes 3 and 2). -/
theorem create_chunks_layout_witness :
    ((ChunkManager.create_chunks
        { min_chunk_size := 2, default_chunk_size := 4, max_chunk_size := 8 }
        CMap.empty "p" 5 (some 3)).1).chunks.length = (5 + 3 - 1) / 3 ∧
    (∀ c ∈ ((ChunkManager.create_chunks
        { min_chunk_size := 2, default_chunk_size := 4, max_chunk_size := 8 }
        CMap.empty "p" 5 (some 3)).1).chunks, c.status = ChunkStatus.PENDING) ∧
    (∀ c, ((ChunkManager.create_chunks
        { min_chunk_size := 2, default_chunk_size := 4, max_chunk_size := 8 }
        CMap.empty "p" 5 (some 3)).1).chunks.get? 0 = some c → c.offset = 0) ∧
    (∀ j c c', ((ChunkManager.create_chunks
        { min_chunk_size := 2, default_chunk_size := 4, max_chunk_size := 8 }
        CMap.empty "p" 5 (some 3)).1).chunks.get? j = some c →
        ((ChunkManager.create_chunks
        { min_chunk_size := 2, default_chunk_size := 4, max_chunk_size := 8 }
        CMap.empty "p" 5 (some 3)).1).chunks.get? (j + 1) = some c' →
        c'.offset = c.offset + c.size) ∧
    ((((ChunkManager.create_chunks
        { min_chunk_size := 2, default_chunk_size := 4, max_chunk_size := 8 }
        CMap.empty "p" 5 (some 3)).1).chunks.map ChunkInfo.size).sum = 5) ∧
    (∀ j c, ((ChunkManager.create_chunks
        { min_chunk_size := 2, default_chunk_size := 4, max_chunk_size := 8 }
        CMap.empty "p" 5 (some 3)).1).chunks.get? j = some c →
        j + 1 < ((ChunkManager.create_chunks
        { min_chunk_size := 2, default_chunk_size := 4, max_chunk_size := 8 }
        CMap.empty "p" 5 (some 3)).1).chunks.length → c.size = 3) :=
  create_chunks_layout
    { min_chunk_size := 2, default_chunk_size := 4, max_chunk_size := 8 }
    CMap.empty "p" 5 (some 3) 3 (by decide) (by decide) (by decide)

/-- C8: on a tracked file and an in-range chunk index,
`reset_chunk ∘ mark_chunk_downloading` leaves the chunk with
`retry_count` incremented by one, status PENDING and `local_checksum`
cleared, every other field of that chunk (and every other chunk)
unchanged. -/
theorem mark_then_reset_chunk (cm : CMap) (p : String) (i : Nat)
    (info : FileValidationInfo) (c : ChunkInfo)
    (hp : cm p = some info) (hc : info.chunks.get? i = some c) :
    ∃ info',
      (ChunkManager.reset_chunk
        (ChunkManager.mark_chunk_downloading cm p i).2 p i).2 p = some info' ∧
      info'.chunks.get? i = some
        { index := c.index, offset := c.offset, size := c.size,
          remote_checksum := c.remote_checksum, local_checksum := none,
          status := ChunkStatus.PENDING, retry_count := c.retry_count + 1 } ∧
      (∀ j, j ≠ i → info'.chunks.get? j = info.chunks.get? j) := by
  have hlt : i < info.chunks.length := by
    by_contra hn
    rw [List.get?_eq_none.mpr (by omega)] at hc
    exact Option.noConfusion hc
  have hmark2 : (ChunkManager.mark_chunk_downloading cm p i).2 =
      ChunkManager.setChunk cm p info i c.mark_downloading := by
    unfold ChunkManager.mark_chunk_downloading
    simp only [hp, hc]
  have hmid : (ChunkManager.mark_chunk_downloading cm p i).2 p =
      some { info with chunks := info.chunks.set i c.mark_downloading } := by
    rw [hmark2]
    exact setChunk_self cm p info i c.mark_downloading
  have hmidc : ({ info with chunks := info.chunks.set i c.mark_downloading } :
      FileValidationInfo).chunks.get? i = some c.mark_downloading :=
    list_get?_set_self info.chunks i c.mark_downloading hlt
  have hreset2 : (ChunkManager.reset_chunk
      (ChunkManager.mark_chunk_downloading cm p i).2 p i).2 =
      ChunkManager.setChunk (ChunkManager.mark_chunk_downloading cm p i).2 p
        { info with chunks := info.chunks.set i c.mark_downloading } i
        { c.mark_downloading with
          status := ChunkStatus.PENDING, local_checksum := none } := by
    unfold ChunkManager.reset_chunk
    simp only [hmid, hmidc]
  refine ⟨_, by rw [hreset2]; exact setChunk_self _ _ _ _ _, ?_, ?_⟩
  · show ((info.chunks.set i c.mark_downloading).set i _).get? i = _
    rw [list_get?_set_self _ i _ (by simpa using hlt)]
    rfl
  · intro j hj
    show ((info.chunks.set i c.mark_downloading).set i _).get? j = _
    rw [list_get?_set_other _ i j _ hj, list_get?_set_other _ i j _ hj]

/-- C10: for an untracked file path, or a tracked path with an
out-of-range chunk index, the per-chunk operations return `none`
(`can_retry_chunk` returns `false`), the pending/corrupt queries of an
untracked path return `[]`, and the tracked state is left untouched (the
embedded operations are total functions, so no exception is raised). -/
theorem chunk_manager_missing_guards (cfg : ValidationConfig) (cm : CMap)
    (p : String) (i : Nat) (lc rc : Option String)
    (h : cm p = none ∨ ∃ info, cm p = some info ∧ info.chunks.length ≤ i) :
    ChunkManager.update_chunk_checksum cm p i lc rc = (none, cm) ∧
    ChunkManager.validate_chunk cm p i = (none, cm) ∧
    ChunkManager.mark_chunk_downloading cm p i = (none, cm) ∧
    ChunkManager.reset_chunk cm p i = (none, cm) ∧
    ChunkManager.can_retry_chunk cfg cm p i = false ∧
    (cm p = none → ChunkManager.get_pending_chunks cm p = [] ∧
      ChunkManager.get_corrupt_chunks cm p = []) := by
  rcases h with h | ⟨info, hp, hlen⟩
  · refine ⟨?_, ?_, ?_, ?_, ?_, ?_⟩
    · unfold ChunkManager.update_chunk_checksum; simp only [h]
    · unfold ChunkManager.validate_chunk; simp only [h]
    · unfold ChunkManager.mark_chunk_downloading; simp only [h]
    · unfold ChunkManager.reset_chunk; simp only [h]
    · unfold ChunkManager.can_retry_chunk; simp only [h]
    · intro _
      constructor
      · unfold ChunkManager.get_pending_chunks; simp only [h]
      · unfold ChunkManager.get_corrupt_chunks; simp only [h]
  · have hg : info.chunks.get? i = none := List.get?_eq_none.mpr hlen
    refine ⟨?_, ?_, ?_, ?_, ?_, ?_⟩
    · unfold ChunkManager.update_chunk_checksum; simp only [hp, hg]
    · unfold ChunkManager.validate_chunk; simp only [hp, hg]
    · unfold ChunkManager.mark_chunk_downloading; simp only [hp, hg]
    · unfold ChunkManager.reset_chunk; simp only [hp, hg]
    · unfold ChunkManager.can_retry_chunk; simp only [hp, hg]
    · intro hn
      rw [hp] at hn
      exact Option.noConfusion hn

/-- C8 witness: `mark_chunk_downloading` then `reset_chunk` on the
concrete chunk of `cmW`. -/
theorem mark_then_reset_chunk_witness :
    ∃ info',
      (ChunkManager.reset_chunk
        (ChunkManager.mark_chunk_downloading cmW "x" 0).2 "x" 0).2 "x" = some info' ∧
      info'.chunks.get? 0 = some
        { index := 0, offset := 0, size := 5,
          remote_checksum := some "r", local_checksum := none,
          status := ChunkStatus.PENDING, retry_count := 1 + 1 } ∧
      (∀ j, j ≠ 0 → info'.chunks.get? j = infoW.chunks.get? j) :=
  mark_then_reset_chunk cmW "x" 0 infoW
    { index := 0, offset := 0, size := 5,
      remote_checksum := some "r", local_checksum := some "l",
      status := ChunkStatus.CORRUPT, retry_count := 1 }
    (by rfl) (by rfl)

/-- C10 witness: the guard theorem instantiated at the untracked path
`"y"` of `cmW`. -/
theorem chunk_manager_missing_guards_witness :
    ChunkManager.update_chunk_checksum cmW "y" 0 (some "a") none = (none, cmW) ∧
    ChunkManager.validate_chunk cmW "y" 0 = (none, cmW) ∧
    ChunkManager.mark_chunk_downloading cmW "y" 0 = (none, cmW) ∧
    ChunkManager.reset_chunk cmW "y" 0 = (none, cmW) ∧
    ChunkManager.can_retry_chunk {} cmW "y" 0 = false ∧
    (cmW "y" = none → ChunkManager.get_pending_chunks cmW "y" = [] ∧
      ChunkManager.get_corrupt_chunks cmW "y" = []) :=
  chunk_manager_missing_guards {} cmW "y" 0 (some "a") none (Or.inl (by rfl))

/-- C4 (amended): with adaptive sizing enabled, the calculated chunk size
lies between `min(min_chunk_size, file_size)` and `max_chunk_size` and
never exceeds the file size; with adaptive sizing disabled it is exactly
`default_chunk_size` (within `[min, max]` but possibly exceeding the file
size).  The original claim's two-sided bound
`min_chunk_size ≤ result ≤ max_chunk_size ∧ result ≤ file_size` fails in
both modes (see the counterexample). -/
theorem calculate_chunk_size_bounds (cfg : ValidationConfig) (stats : NetworkStats)
    (fs : Nat) (hok : cfg.ok) (hfs : 1 ≤ fs) :
    (cfg.enable_adaptive_sizing = true →
      min (cfg.min_chunk_size : Int) (fs : Int) ≤
          AdaptiveChunkSizer.calculate_chunk_size cfg stats fs ∧
      AdaptiveChunkSizer.calculate_chunk_size cfg stats fs ≤ (cfg.max_chunk_size : Int) ∧
      AdaptiveChunkSizer.calculate_chunk_size cfg stats fs ≤ (fs : Int)) ∧
    (cfg.enable_adaptive_sizing = false →
      AdaptiveChunkSizer.calculate_chunk_size cfg stats fs =
        (cfg.default_chunk_size : Int)) := by
  unfold AdaptiveChunkSizer.calculate_chunk_size
  constructor
  · intro hen
    rw [hen]
    simp only [Bool.not_true, Bool.false_eq_true, if_false]
    set x := AdaptiveChunkSizer.adjust_for_failure_rate
      (AdaptiveChunkSizer.adjust_for_network_speed
        (AdaptiveChunkSizer.adjust_for_file_size (cfg.default_chunk_size : Int) fs) stats)
      stats with hx
    have hmm : (cfg.min_chunk_size : Int) ≤ (cfg.max_chunk_size : Int) := by
      exact_mod_cast hok.2.1
    refine ⟨?_, ?_, ?_⟩
    · exact min_le_min (le_max_left _ _) (le_refl _)
    · calc min (max (cfg.min_chunk_size : Int) (min x (cfg.max_chunk_size : Int))) (fs : Int)
          ≤ max (cfg.min_chunk_size : Int) (min x (cfg.max_chunk_size : Int)) :=
            min_le_left _ _
      _ ≤ (cfg.max_chunk_size : Int) := max_le hmm (min_le_right _ _)
    · exact min_le_right _ _
  · intro hen
    rw [hen]
    simp

/-- C4 counterexample: with the default configuration sizes and a
one-byte file, adaptive sizing disabled returns `default_chunk_size =
10485760 > file_size`, and adaptive sizing enabled returns
`1 < min_chunk_size = 1048576`; either way the claimed conjunction
`min_chunk_size ≤ result ∧ result ≤ file_size` fails. -/
theorem calculate_chunk_size_bounds_counterexample :
    ({ enable_adaptive_sizing := false } : ValidationConfig).ok ∧
    (1 : Nat) ≤ 1 ∧
    AdaptiveChunkSizer.calculate_chunk_size
      { enable_adaptive_sizing := false } {} 1 = 10485760 ∧
    ¬ AdaptiveChunkSizer.calculate_chunk_size
      { enable_adaptive_sizing := false } {} 1 ≤ ((1 : Nat) : Int) ∧
    ({} : ValidationConfig).ok ∧
    AdaptiveChunkSizer.calculate_chunk_size {} {} 1 = 1 ∧
    ¬ (({} : ValidationConfig).min_chunk_size : Int) ≤
        AdaptiveChunkSizer.calculate_chunk_size {} {} 1 := by
  have hone : AdaptiveChunkSizer.calculate_chunk_size {} {} 1 = 1 := by
    norm_num [AdaptiveChunkSizer.calculate_chunk_size,
      AdaptiveChunkSizer.adjust_for_file_size,
      AdaptiveChunkSizer.adjust_for_network_speed,
      AdaptiveChunkSizer.adjust_for_failure_rate,
      AdaptiveChunkSizer.SMALL_FILE_THRESHOLD,
      AdaptiveChunkSizer.MEDIUM_FILE_THRESHOLD,
      AdaptiveChunkSizer.LARGE_FILE_THRESHOLD,
      AdaptiveChunkSizer.SLOW_NETWORK_THRESHOLD,
      AdaptiveChunkSizer.FAST_NETWORK_THRESHOLD,
      AdaptiveChunkSizer.LOW_FAILURE_THRESHOLD,
      AdaptiveChunkSizer.HIGH_FAILURE_THRESHOLD, pyTrunc]
  refine ⟨by decide, by decide, by decide, by decide, by decide, hone, ?_⟩
  rw [hone]
  decide

/-- C4 witness: the amended bounds at the default configuration, default
stats and a 1-byte file. -/
theorem calculate_chunk_size_bounds_witness :
    ((({} : ValidationConfig)).enable_adaptive_sizing = true →
      min ((({} : ValidationConfig)).min_chunk_size : Int) ((1 : Nat) : Int) ≤
          AdaptiveChunkSizer.calculate_chunk_size {} {} 1 ∧
      AdaptiveChunkSizer.calculate_chunk_size {} {} 1 ≤
        ((({} : ValidationConfig)).max_chunk_size : Int) ∧
      AdaptiveChunkSizer.calculate_chunk_size {} {} 1 ≤ ((1 : Nat) : Int)) ∧
    ((({} : ValidationConfig)).enable_adaptive_sizing = false →
      AdaptiveChunkSizer.calculate_chunk_size {} {} 1 =
        ((({} : ValidationConfig)).default_chunk_size : Int)) :=
  calculate_chunk_size_bounds {} {} 1 (by decide) (by decide)

/-- C9 (amended): for a small file (`file_size < 10 MiB`), the file-size
adjustment returns `min(chunk_size // 4, file_size // 4)` — one quarter of
the incoming chunk size only when the chunk size is at most the file size
— falling back to the unmodified chunk size when that minimum is zero.
Under `4 ≤ chunk_size ≤ file_size` the result is exactly
`chunk_size // 4`. -/
theorem adjust_for_file_size_small (c : Int) (fs : Nat)
    (hfs : fs < AdaptiveChunkSizer.SMALL_FILE_THRESHOLD)
    (hc4 : 4 ≤ c) (hcf : c ≤ (fs : Int)) :
    AdaptiveChunkSizer.adjust_for_file_size c fs = c.fdiv 4 := by
  unfold AdaptiveChunkSizer.adjust_for_file_size
  rw [if_pos hfs]
  have e1 : c.fdiv 4 = c / 4 := Int.fdiv_eq_ediv c (by omega)
  have e2 : ((fs : Int)).fdiv 4 = (fs : Int) / 4 := Int.fdiv_eq_ediv _ (by omega)
  have hle : c.fdiv 4 ≤ ((fs : Int)).fdiv 4 := by
    rw [e1, e2]; omega
  have hmin : min (c.fdiv 4) (((fs : Int)).fdiv 4) = c.fdiv 4 := min_eq_left hle
  have hne : c.fdiv 4 ≠ 0 := by
    rw [e1]; omega
  simp only [hmin]
  rw [if_pos hne]

/-- C9 counterexample: with the default 10 MiB chunk size and a 4-byte
file (4 < 10 MiB), the adjustment returns
`min(10485760 // 4, 4 // 4) = 1`, not `10485760 // 4 = 2621440`: the step
is not plain multiplication by 0.25. -/
theorem adjust_for_file_size_small_counterexample :
    (4 : Nat) < AdaptiveChunkSizer.SMALL_FILE_THRESHOLD ∧
    AdaptiveChunkSizer.adjust_for_file_size 10485760 4 = 1 ∧
    (10485760 : Int).fdiv 4 = 2621440 ∧
    AdaptiveChunkSizer.adjust_for_file_size 10485760 4 ≠ (10485760 : Int).fdiv 4 := by
  refine ⟨by decide, by decide, by decide, by decide⟩

/-- C9 witness: the amended statement at `chunk_size = 8`,
`file_size = 100`. -/
theorem adjust_for_file_size_small_witness :
    AdaptiveChunkSizer.adjust_for_file_size 8 100 = (8 : Int).fdiv 4 :=
  adjust_for_file_size_small 8 100 (by decide) (by decide) (by decide)

theorem batchesAux_join (fuel : Nat) :
    ∀ l : List ChunkInfo, l.length ≤ fuel →
      (RemoteChecksumGenerator.batchesAux fuel l).join = l := by
  induction fuel with
  | zero =>
    intro l hl
    have : l = [] := List.length_eq_zero.mp (by omega)
    subst this
    rfl
  | succ fuel ih =>
    intro l hl
    by_cases h : l = []
    · subst h; rfl
    · have hunfold : RemoteChecksumGenerator.batchesAux (fuel + 1) l =
          l.take RemoteChecksumGenerator.MAX_CHUNKS_PER_BATCH ::
            RemoteChecksumGenerator.batchesAux fuel
              (l.drop RemoteChecksumGenerator.MAX_CHUNKS_PER_BATCH) := by
        simp [RemoteChecksumGenerator.batchesAux, h]
      have hlen : (l.drop RemoteChecksumGenerator.MAX_CHUNKS_PER_BATCH).length ≤ fuel := by
        have h1 : l.length ≠ 0 := fun h0 => h (List.length_eq_zero.mp h0)
        simp only [List.length_drop, RemoteChecksumGenerator.MAX_CHUNKS_PER_BATCH]
        omega
      rw [hunfold]
      show l.take RemoteChecksumGenerator.MAX_CHUNKS_PER_BATCH ++
        (RemoteChecksumGenerator.batchesAux fuel
          (l.drop RemoteChecksumGenerator.MAX_CHUNKS_PER_BATCH)).join = l
      rw [ih _ hlen, List.take_append_drop]

theorem batchesAux_size (fuel : Nat) :
    ∀ (l : List ChunkInfo) (b : List ChunkInfo),
      b ∈ RemoteChecksumGenerator.batchesAux fuel l →
      b.length ≤ RemoteChecksumGenerator.MAX_CHUNKS_PER_BATCH := by
  induction fuel with
  | zero =>
    intro l b hb
    simp [RemoteChecksumGenerator.batchesAux] at hb
  | succ fuel ih =>
    intro l b hb
    by_cases h : l = []
    · subst h
      simp [RemoteChecksumGenerator.batchesAux] at hb
    · have hunfold : RemoteChecksumGenerator.batchesAux (fuel + 1) l =
          l.take RemoteChecksumGenerator.MAX_CHUNKS_PER_BATCH ::
            RemoteChecksumGenerator.batchesAux fuel
              (l.drop RemoteChecksumGenerator.MAX_CHUNKS_PER_BATCH) := by
        simp [RemoteChecksumGenerator.batchesAux, h]
      rw [hunfold] at hb
      rcases List.mem_cons.mp hb with hb | hb
      · subst hb
        simp [List.length_take]
      · exact ih _ b hb

theorem compute_chunk_batch_ok_length (shell : String → Except Unit String)
    (alg : ValidationAlgorithm) (p : String) (b : List ChunkInfo)
    (cs : List String)
    (h : RemoteChecksumGenerator.compute_chunk_batch shell alg p b = Except.ok cs) :
    cs.length = b.length := by
  unfold RemoteChecksumGenerator.compute_chunk_batch at h
  cases hsh : shell (RemoteChecksumGenerator.batch_command alg p b) with
  | error e => rw [hsh] at h; exact Except.noConfusion h
  | ok out =>
    rw [hsh] at h
    simp only [] at h
    by_cases hne : (RemoteChecksumGenerator.parse_batch_output out).length ≠ b.length
    · rw [if_pos hne] at h; exact Except.noConfusion h
    · rw [if_neg hne] at h
      injection h with h
      subst h
      omega

theorem run_batches_ok_length (shell : String → Except Unit String)
    (alg : ValidationAlgorithm) (p : String) :
    ∀ (bl : List (List ChunkInfo)) (l : List String),
      (RemoteChecksumGenerator.run_batches shell alg p bl).1 = Except.ok l →
      l.length = (bl.map List.length).sum := by
  intro bl
  induction bl with
  | nil =>
    intro l h
    injection h with h
    subst h
    rfl
  | cons b rest ih =>
    intro l h
    unfold RemoteChecksumGenerator.run_batches at h
    cases hb : RemoteChecksumGenerator.compute_chunk_batch shell alg p b with
    | error e => rw [hb] at h; exact Except.noConfusion h
    | ok cs =>
      rw [hb] at h
      simp only [] at h
      cases hrest : RemoteChecksumGenerator.run_batches shell alg p rest with
      | mk r t =>
        rw [hrest] at h
        cases r with
        | error e => exact Except.noConfusion h
        | ok l' =>
          injection h with h
          subst h
          have h1 : l'.length = (rest.map List.length).sum := by
            apply ih
            rw [hrest]
          have h2 : cs.length = b.length := compute_chunk_batch_ok_length shell alg p b cs hb
          simp [h1, h2]

theorem run_batches_trace_mem (shell : String → Except Unit String)
    (alg : ValidationAlgorithm) (p : String) :
    ∀ (bl : List (List ChunkInfo)) (b : List ChunkInfo),
      b ∈ (RemoteChecksumGenerator.run_batches shell alg p bl).2 → b ∈ bl := by
  intro bl
  induction bl with
  | nil =>
    intro b hb
    simp [RemoteChecksumGenerator.run_batches] at hb
  | cons b0 rest ih =>
    intro b hb
    unfold RemoteChecksumGenerator.run_batches at hb
    cases hb0 : RemoteChecksumGenerator.compute_chunk_batch shell alg p b0 with
    | error e =>
      rw [hb0] at hb
      simp only [] at hb
      rcases List.mem_singleton.mp hb with h
      exact List.mem_cons.mpr (Or.inl h)
    | ok cs =>
      rw [hb0] at hb
      simp only [] at hb
      cases hrest : RemoteChecksumGenerator.run_batches shell alg p rest with
      | mk r t =>
        rw [hrest] at hb
        cases r with
        | error e =>
          rcases List.mem_cons.mp hb with h | h
          · exact List.mem_cons.mpr (Or.inl h)
          · refine List.mem_cons.mpr (Or.inr (ih b ?_))
            rw [hrest]
            exact h
        | ok l' =>
          rcases List.mem_cons.mp hb with h | h
          · exact List.mem_cons.mpr (Or.inl h)
          · refine List.mem_cons.mpr (Or.inr (ih b ?_))
            rw [hrest]
            exact h

/-- C7: for a non-empty chunk list, every remote call issued by
`compute_chunk_checksums` carries at most 100 chunks (each as one
semicolon-joined compound command, `batch_command`); a batch whose parsed
output line count differs from its chunk count produces a `ChecksumError`
(`Except.error`) instead of a result; and a successful overall result has
exactly one checksum per chunk, in chunk order (the concatenation of the
per-batch lists). -/
theorem compute_chunk_checksums_batched (shell : String → Except Unit String)
    (alg : ValidationAlgorithm) (p : String) (chunks : List ChunkInfo)
    (hne : chunks ≠ []) :
    (∀ b ∈ (RemoteChecksumGenerator.compute_chunk_checksums shell alg p chunks).2,
        b.length ≤ RemoteChecksumGenerator.MAX_CHUNKS_PER_BATCH) ∧
    (∀ b out, shell (RemoteChecksumGenerator.batch_command alg p b) = Except.ok out →
        (RemoteChecksumGenerator.parse_batch_output out).length ≠ b.length →
        RemoteChecksumGenerator.compute_chunk_batch shell alg p b = Except.error ()) ∧
    (∀ l, (RemoteChecksumGenerator.compute_chunk_checksums shell alg p chunks).1 =
        Except.ok l → l.length = chunks.length) := by
  refine ⟨?_, ?_, ?_⟩
  · intro b hb
    unfold RemoteChecksumGenerator.compute_chunk_checksums at hb
    rw [if_neg hne] at hb
    exact batchesAux_size chunks.length chunks b
      (run_batches_trace_mem shell alg p _ b hb)
  · intro b out hsh hmis
    unfold RemoteChecksumGenerator.compute_chunk_batch
    rw [hsh]
    simp only []
    rw [if_pos hmis]
  · intro l hl
    unfold RemoteChecksumGenerator.compute_chunk_checksums at hl
    rw [if_neg hne] at hl
    have h1 := run_batches_ok_length shell alg p _ l hl
    have h2 : ((RemoteChecksumGenerator.batches chunks).map List.length).sum =
        (RemoteChecksumGenerator.batches chunks).join.length := by
      rw [List.length_join]
    rw [h1, h2]
    show (RemoteChecksumGenerator.batchesAux chunks.length chunks).join.length = _
    rw [batchesAux_join chunks.length chunks (le_refl _)]

/-- C7 witness: a single 5-byte chunk under a shell oracle that答 replies
with one checksum line. -/
theorem compute_chunk_checksums_batched_witness :
    (∀ b ∈ (RemoteChecksumGenerator.compute_chunk_checksums shellW
        ValidationAlgorithm.MD5 "p" [chunkW]).2,
        b.length ≤ RemoteChecksumGenerator.MAX_CHUNKS_PER_BATCH) ∧
    (∀ b out, shellW
          (RemoteChecksumGenerator.batch_command ValidationAlgorithm.MD5 "p" b) =
          Except.ok out →
        (RemoteChecksumGenerator.parse_batch_output out).length ≠ b.length →
        RemoteChecksumGenerator.compute_chunk_batch shellW
          ValidationAlgorithm.MD5 "p" b = Except.error ()) ∧
    (∀ l, (RemoteChecksumGenerator.compute_chunk_checksums shellW
        ValidationAlgorithm.MD5 "p" [chunkW]).1 = Except.ok l →
        l.length = [chunkW].length) :=
  compute_chunk_checksums_batched shellW ValidationAlgorithm.MD5 "p" [chunkW]
    (by decide)

/-- C2: the validation-facing effects of a controller tick leave the
redownload queue untouched and enqueue no `resume_chunk` command — the
controller never pops a redownload request, issues no byte-range fetch
(the `Lftp` driver has no such API) and never calls the validator's
`resume_chunk`, contrary to the documented corrupt-chunk repair protocol. -/
theorem controller_tick_ignores_redownloads (q : ValidationProcessQueues)
    (cmds : List ValidationCommand) :
    (Controller.process_tick_validation q cmds).redownload_result_queue =
        q.redownload_result_queue ∧
    (Controller.process_tick_validation q cmds).resume_chunk_queue =
        q.resume_chunk_queue := by
  have h : ∀ (l : List ValidationCommand) (q : ValidationProcessQueues),
      (l.foldl ValidationProcess.validate q).redownload_result_queue =
          q.redownload_result_queue ∧
      (l.foldl ValidationProcess.validate q).resume_chunk_queue =
          q.resume_chunk_queue := by
    intro l
    induction l with
    | nil => intro q; exact ⟨rfl, rfl⟩
    | cons c cs ih =>
      intro q
      rw [List.foldl_cons]
      exact ih (ValidationProcess.validate q c)
  exact ⟨(h cmds q).1, (h cmds q).2⟩

theorem hash_pending_chunk_no_sleep (env : Env) (s : DispatchState)
    (lp : String) (c : ChunkInfo) :
    ∀ e ∈ (ValidationDispatch.hash_pending_chunk env s lp c).events,
      e.isSleep = false := by
  intro e he
  unfold ValidationDispatch.hash_pending_chunk at he
  repeat' split at he
  all_goals simp_all [VEvent.isSleep]

theorem finish_or_retry_no_sleep (ctx : DispatchCtx) (s : DispatchState)
    (lp : String) :
    ∀ e ∈ (ValidationDispatch.finish_or_retry ctx s lp).events,
      e.isSleep = false := by
  intro e he
  unfold ValidationDispatch.finish_or_retry at he
  by_cases h1 : s.active_inline ∧ ChunkManager.get_pending_chunks s.cm lp ≠ []
  · rw [if_pos h1] at he
    simp at he
  · rw [if_neg h1] at he
    cases hcor : ChunkManager.get_corrupt_chunks s.cm lp with
    | nil =>
      simp only [hcor] at he
      simp at he
    | cons c0 rest =>
      simp only [hcor] at he
      repeat' split at he
      all_goals simp_all

theorem full_file_fallback_no_sleep (env : Env) (s : DispatchState)
    (lp : String) :
    ∀ e ∈ (ValidationDispatch.full_file_fallback env s lp).events,
      e.isSleep = false := by
  intro e he
  unfold ValidationDispatch.full_file_fallback at he
  repeat' split at he
  all_goals simp_all [VEvent.isSleep]

theorem continue_validation_no_sleep (ctx : DispatchCtx) (env : Env)
    (s : DispatchState) :
    ∀ e ∈ (ValidationDispatch.continue_validation ctx env s).events,
      e.isSleep = false := by
  intro e he
  unfold ValidationDispatch.continue_validation at he
  repeat' split at he
  all_goals
    first
      | exact full_file_fallback_no_sleep env s _ e he
      | exact hash_pending_chunk_no_sleep env s _ _ e he
      | exact finish_or_retry_no_sleep ctx s _ e he
      | simp_all

/-- C3: `_start_validation` makes no `time.sleep` call — its event trace
contains no sleep event, for every environment, command (inline or not)
and state.  The settle delay the claim (and the repository's own unit
tests) expect, together with the `settle_delay_secs` configuration field,
is absent from the source. -/
theorem start_validation_no_sleep (ctx : DispatchCtx) (env : Env)
    (cmd : ValidationCommand) (s : DispatchState) :
    (ValidationDispatch.start_validation ctx env cmd s).events.countP
      (fun e => e.isSleep) = 0 := by
  rw [List.countP_eq_zero]
  intro e he
  simp only [Bool.not_eq_true]
  simp only [ValidationDispatch.start_validation] at he
  split at he
  · exact continue_validation_no_sleep ctx env _ e he
  · split at he
    · rcases List.mem_cons.mp he with h | h
      · subst h; rfl
      · exact continue_validation_no_sleep ctx env _ e h
    · split at he
      · rcases List.mem_cons.mp he with h | h
        · subst h; rfl
        · rcases List.mem_cons.mp h with h | h
          · subst h; rfl
          · exact continue_validation_no_sleep ctx env _ e h
      · rcases List.mem_cons.mp he with h | h
        · subst h; rfl
        · rcases List.mem_cons.mp h with h | h
          · subst h; rfl
          · simp at h

theorem tick1_facts :
    tick1.state.cm "/l/f" = some info1 ∧
    tick1.state.active_file = some "/l/f" ∧
    tick1.state.active_remote_path = some "/r/f" ∧
    tick1.state.active_inline = false := by
  norm_num [tick1, s0a, ctx0, cmd0, env0, DispatchState.init, info1,
    ValidationDispatch.process_next, ValidationDispatch.queue_validation,
    ValidationDispatch.start_validation, ValidationDispatch.continue_validation,
    ValidationDispatch.actionable_pending, ValidationDispatch.hash_pending_chunk,
    ValidationDispatch.finish_or_retry, ValidationDispatch.full_file_fallback,
    ValidationDispatch.mark_corrupt_direct, ValidationDispatch.apply_remote_checksums,
    ValidationDispatch.chunk_status_after, ValidationDispatch.mark_and_queue,
    ChunkManager.create_chunks, ChunkManager.effective_chunk_size,
    ChunkManager.buildChunks, ChunkManager.get_validation_info,
    ChunkManager.get_pending_chunks, ChunkManager.get_corrupt_chunks,
    ChunkManager.update_chunk_checksum, ChunkManager.validate_chunk,
    ChunkManager.can_retry_chunk, ChunkManager.mark_chunk_downloading,
    ChunkManager.mark_file_complete, ChunkManager.set_full_file_checksums,
    ChunkManager.validate_full_file, ChunkManager.remove_file, ChunkManager.setChunk,
    CMap.insert, CMap.empty, CMap.erase, FileValidationInfo.corrupt_chunks,
    ChunkInfo.mark_corrupt, ChunkInfo.mark_valid, ChunkInfo.mark_downloading,
    ChunkInfo.end_offset, ChunkInfo.is_valid,
    AdaptiveChunkSizer.calculate_chunk_size, AdaptiveChunkSizer.adjust_for_file_size,
    AdaptiveChunkSizer.adjust_for_network_speed, AdaptiveChunkSizer.adjust_for_failure_rate,
    AdaptiveChunkSizer.SMALL_FILE_THRESHOLD, AdaptiveChunkSizer.MEDIUM_FILE_THRESHOLD,
    AdaptiveChunkSizer.LARGE_FILE_THRESHOLD, AdaptiveChunkSizer.SLOW_NETWORK_THRESHOLD,
    AdaptiveChunkSizer.FAST_NETWORK_THRESHOLD, AdaptiveChunkSizer.LOW_FAILURE_THRESHOLD,
    AdaptiveChunkSizer.HIGH_FAILURE_THRESHOLD, pyTrunc,
    AdaptiveChunkSizer.update_network_stats_success, NetworkStats.record_chunk_result,
    show pyJoin "/l" "f" = "/l/f" from by decide,
    show pyJoin "/r" "f" = "/r/f" from by decide,
    show ¬ (("b0" : String) = "a0") from by decide]

theorem step2_eval (s : DispatchState)
    (h1 : s.active_file = some "/l/f") (h2 : s.cm "/l/f" = some info1)
    (h3 : s.active_inline = false) (h4 : s.active_remote_path = some "/r/f") :
    (ValidationDispatch.process_next ctx0 env0 s).emitted = [rd0] ∧
    (ValidationDispatch.process_next ctx0 env0 s).state.cm "/l/f" = some info2 ∧
    (ValidationDispatch.process_next ctx0 env0 s).state.active_file = some "/l/f" ∧
    (ValidationDispatch.process_next ctx0 env0 s).state.active_inline = false := by
  simp +decide [ValidationDispatch.process_next, ValidationDispatch.continue_validation,
    ValidationDispatch.actionable_pending, ValidationDispatch.finish_or_retry,
    ValidationDispatch.mark_and_queue, h1, h2, h3, h4, info1, info2, rd0, ctx0,
    ChunkManager.get_pending_chunks, ChunkManager.get_corrupt_chunks,
    ChunkManager.can_retry_chunk, ChunkManager.mark_chunk_downloading,
    ChunkManager.setChunk, CMap.insert, FileValidationInfo.corrupt_chunks,
    ChunkInfo.mark_downloading, List.filter]

theorem step3_eval (s : DispatchState)
    (h1 : s.active_file = some "/l/f") (h2 : s.cm "/l/f" = some info2)
    (h3 : s.active_inline = false) :
    (ValidationDispatch.process_next ctx0 env0 s).result =
      some { name := "f", file_path := "/l/f", is_valid := true,
             corrupt_chunks := [] } := by
  simp +decide [ValidationDispatch.process_next, ValidationDispatch.continue_validation,
    ValidationDispatch.actionable_pending, ValidationDispatch.finish_or_retry,
    h1, h2, h3, info2, ctx0,
    ChunkManager.get_pending_chunks, ChunkManager.get_corrupt_chunks,
    ChunkManager.mark_file_complete, ChunkManager.remove_file,
    CMap.insert, CMap.erase, FileValidationInfo.corrupt_chunks, List.filter,
    show pyBasename "/l/f" = "f" from by decide]

/-- C1: the concrete run in which the single chunk of `/l/f` hashes
corrupt: tick 2 emits its redownload request and leaves the chunk in
status DOWNLOADING (retry in flight, no `resume_chunk` yet), and tick 3
nevertheless returns a completion result with `is_valid = true` — the
code emits a valid completion while a chunk is in a non-VALID status,
because `_continue_validation` only checks for PENDING and CORRUPT
chunks before declaring success. -/
theorem downloading_chunk_completes_valid :
    tick2.emitted = [rd0] ∧
    (∃ info, tick2.state.cm "/l/f" = some info ∧
      info.chunks.map ChunkInfo.status = [ChunkStatus.DOWNLOADING]) ∧
    tick3.result = some { name := "f", file_path := "/l/f", is_valid := true,
                          corrupt_chunks := [] } := by
  obtain ⟨a1, a2, a3, a4⟩ := tick1_facts
  obtain ⟨b1, b2, b3, b4⟩ := step2_eval tick1.state a2 a1 a4 a3
  exact ⟨b1, ⟨info2, b2, by decide⟩, step3_eval tick2.state b3 b2 b4⟩

theorem chunkShape_refl (cm : CMap) : ChunkShape cm cm := by
  intro q info' h'
  exact ⟨info', h', rfl, fun j hj hj' => ⟨rfl, rfl⟩⟩

theorem chunkShape_trans {a b c : CMap} (h1 : ChunkShape a b) (h2 : ChunkShape b c) :
    ChunkShape a c := by
  intro q info' h'
  obtain ⟨infoB, hB, hlenB, hfB⟩ := h2 q info' h'
  obtain ⟨infoA, hA, hlenA, hfA⟩ := h1 q infoB hB
  refine ⟨infoA, hA, hlenB.trans hlenA, fun j hj hj' => ?_⟩
  have hjB : j < infoB.chunks.length := by omega
  exact ⟨(hfB j hj hjB).1.trans (hfA j hjB hj').1,
    (hfB j hj hjB).2.trans (hfA j hjB hj').2⟩

theorem chunkShape_setChunk (cm : CMap) (p : String) (info : FileValidationInfo)
    (i : Nat) (c c0 : ChunkInfo) (hp : cm p = some info)
    (hc : info.chunks.get? i = some c0)
    (hidx : c.index = c0.index) (hretry : c.retry_count = c0.retry_count) :
    ChunkShape cm (ChunkManager.setChunk cm p info i c) := by
  have hlt : i < info.chunks.length := by
    by_contra hn
    rw [List.get?_eq_none.mpr (by omega)] at hc
    exact Option.noConfusion hc
  intro q info' h'
  by_cases hq : q = p
  · subst hq
    rw [setChunk_self] at h'
    injection h' with h'
    subst h'
    refine ⟨info, hp, by simp, fun j hj hj' => ?_⟩
    have hjs : j < (info.chunks.set i c).length := by simpa using hj'
    by_cases hji : j = i
    · subst hji
      have h4 : (info.chunks.set j c).get? j = some c := list_get?_set_self _ _ _ hlt
      have h5 : (info.chunks.set j c).get? j =
          some ((info.chunks.set j c).get ⟨j, hjs⟩) := List.get?_eq_get hjs
      have h6 : info.chunks.get? j = some (info.chunks.get ⟨j, hj'⟩) :=
        List.get?_eq_get hj'
      rw [h4] at h5
      rw [hc] at h6
      have hval : (info.chunks.set j c).get ⟨j, hjs⟩ = c := by
        injection h5 with h5
        exact h5.symm
      have hval0 : info.chunks.get ⟨j, hj'⟩ = c0 := by
        injection h6 with h6
        exact h6.symm
      refine ⟨?_, ?_⟩
      · rw [show ({ info with chunks := info.chunks.set j c} :
            FileValidationInfo).chunks.get ⟨j, hj⟩ = c from hval, hval0]
        exact hidx
      · rw [show ({ info with chunks := info.chunks.set j c} :
            FileValidationInfo).chunks.get ⟨j, hj⟩ = c from hval, hval0]
        exact hretry
    · have h4 : (info.chunks.set i c).get? j = info.chunks.get? j :=
        list_get?_set_other _ _ _ _ hji
      have h5 : (info.chunks.set i c).get? j =
          some ((info.chunks.set i c).get ⟨j, hjs⟩) := List.get?_eq_get hjs
      have h6 : info.chunks.get? j = some (info.chunks.get ⟨j, hj'⟩) :=
        List.get?_eq_get hj'
      rw [h5, h6] at h4
      injection h4 with h4
      have h4' : ({ info with chunks := info.chunks.set i c} :
          FileValidationInfo).chunks.get ⟨j, hj⟩ = info.chunks.get ⟨j, hj'⟩ := h4
      exact ⟨congrArg ChunkInfo.index h4', congrArg ChunkInfo.retry_count h4'⟩
  · rw [setChunk_other cm p info i c q hq] at h'
    exact ⟨info', h', rfl, fun j hj hj' => ⟨rfl, rfl⟩⟩

theorem update_chunk_checksum_shape (cm : CMap) (p : String) (i : Nat)
    (lc rc : Option String) :
    ChunkShape cm (ChunkManager.update_chunk_checksum cm p i lc rc).2 := by
  cases hp : cm p with
  | none =>
    have he : (ChunkManager.update_chunk_checksum cm p i lc rc).2 = cm := by
      unfold ChunkManager.update_chunk_checksum
      simp only [hp]
    rw [he]
    exact chunkShape_refl cm
  | some info =>
    cases hc : info.chunks.get? i with
    | none =>
      have he : (ChunkManager.update_chunk_checksum cm p i lc rc).2 = cm := by
        unfold ChunkManager.update_chunk_checksum
        simp only [hp, hc]
      rw [he]
      exact chunkShape_refl cm
    | some c =>
      cases hlc : lc with
      | none =>
        cases hrc : rc with
        | none =>
          have he : (ChunkManager.update_chunk_checksum cm p i none none).2 =
              ChunkManager.setChunk cm p info i c := by
            unfold ChunkManager.update_chunk_checksum
            simp only [hp, hc]
          rw [he]
          exact chunkShape_setChunk cm p info i c c hp hc rfl rfl
        | some v =>
          have he : (ChunkManager.update_chunk_checksum cm p i none (some v)).2 =
              ChunkManager.setChunk cm p info i { c with remote_checksum := some v } := by
            unfold ChunkManager.update_chunk_checksum
            simp only [hp, hc]
          rw [he]
          exact chunkShape_setChunk cm p info i _ c hp hc rfl rfl
      | some w =>
        cases hrc : rc with
        | none =>
          have he : (ChunkManager.update_chunk_checksum cm p i (some w) none).2 =
              ChunkManager.setChunk cm p info i { c with local_checksum := some w } := by
            unfold ChunkManager.update_chunk_checksum
            simp only [hp, hc]
          rw [he]
          exact chunkShape_setChunk cm p info i _ c hp hc rfl rfl
        | some v =>
          have he : (ChunkManager.update_chunk_checksum cm p i (some w) (some v)).2 =
              ChunkManager.setChunk cm p info i
                { c with local_checksum := some w, remote_checksum := some v } := by
            unfold ChunkManager.update_chunk_checksum
            simp only [hp, hc]
          rw [he]
          exact chunkShape_setChunk cm p info i _ c hp hc rfl rfl

theorem validate_chunk_shape (cm : CMap) (p : String) (i : Nat) :
    ChunkShape cm (ChunkManager.validate_chunk cm p i).2 := by
  cases hp : cm p with
  | none =>
    have he : (ChunkManager.validate_chunk cm p i).2 = cm := by
      unfold ChunkManager.validate_chunk
      simp only [hp]
    rw [he]
    exact chunkShape_refl cm
  | some info =>
    cases hc : info.chunks.get? i with
    | none =>
      have he : (ChunkManager.validate_chunk cm p i).2 = cm := by
        unfold ChunkManager.validate_chunk
        simp only [hp, hc]
      rw [he]
      exact chunkShape_refl cm
    | some c =>
      cases hl : c.local_checksum with
      | none =>
        have he : (ChunkManager.validate_chunk cm p i).2 = cm := by
          unfold ChunkManager.validate_chunk
          simp only [hp, hc, hl]
        rw [he]
        exact chunkShape_refl cm
      | some w =>
        cases hr : c.remote_checksum with
        | none =>
          have he : (ChunkManager.validate_chunk cm p i).2 = cm := by
            unfold ChunkManager.validate_chunk
            simp only [hp, hc, hl, hr]
          rw [he]
          exact chunkShape_refl cm
        | some v =>
          by_cases hlr : w = v
          · have he : (ChunkManager.validate_chunk cm p i).2 =
                ChunkManager.setChunk cm p info i c.mark_valid := by
              unfold ChunkManager.validate_chunk
              simp only [hp, hc, hl, hr]
              rw [if_pos hlr]
            rw [he]
            exact chunkShape_setChunk cm p info i _ c hp hc rfl rfl
          · have he : (ChunkManager.validate_chunk cm p i).2 =
                ChunkManager.setChunk cm p info i c.mark_corrupt := by
              unfold ChunkManager.validate_chunk
              simp only [hp, hc, hl, hr]
              rw [if_neg hlr]
            rw [he]
            exact chunkShape_setChunk cm p info i _ c hp hc rfl rfl

theorem reset_chunk_shape (cm : CMap) (p : String) (i : Nat) :
    ChunkShape cm (ChunkManager.reset_chunk cm p i).2 := by
  cases hp : cm p with
  | none =>
    have he : (ChunkManager.reset_chunk cm p i).2 = cm := by
      unfold ChunkManager.reset_chunk
      simp only [hp]
    rw [he]
    exact chunkShape_refl cm
  | some info =>
    cases hc : info.chunks.get? i with
    | none =>
      have he : (ChunkManager.reset_chunk cm p i).2 = cm := by
        unfold ChunkManager.reset_chunk
        simp only [hp, hc]
      rw [he]
      exact chunkShape_refl cm
    | some c =>
      have he : (ChunkManager.reset_chunk cm p i).2 =
          ChunkManager.setChunk cm p info i
            { c with status := ChunkStatus.PENDING, local_checksum := none } := by
        unfold ChunkManager.reset_chunk
        simp only [hp, hc]
      rw [he]
      exact chunkShape_setChunk cm p info i _ c hp hc rfl rfl

theorem mark_corrupt_direct_shape (cm : CMap) (p : String) (i : Nat) :
    ChunkShape cm (ValidationDispatch.mark_corrupt_direct cm p i) := by
  cases hp : cm p with
  | none =>
    have he : ValidationDispatch.mark_corrupt_direct cm p i = cm := by
      unfold ValidationDispatch.mark_corrupt_direct
      simp only [hp]
    rw [he]
    exact chunkShape_refl cm
  | some info =>
    cases hc : info.chunks.get? i with
    | none =>
      have he : ValidationDispatch.mark_corrupt_direct cm p i = cm := by
        unfold ValidationDispatch.mark_corrupt_direct
        simp only [hp, hc]
      rw [he]
      exact chunkShape_refl cm
    | some c =>
      have he : ValidationDispatch.mark_corrupt_direct cm p i =
          ChunkManager.setChunk cm p info i c.mark_corrupt := by
        unfold ValidationDispatch.mark_corrupt_direct
        simp only [hp, hc]
      rw [he]
      exact chunkShape_setChunk cm p info i _ c hp hc rfl rfl

theorem insert_same_chunks_shape (cm : CMap) (p : String)
    (info info' : FileValidationInfo) (hp : cm p = some info)
    (hch : info'.chunks = info.chunks) :
    ChunkShape cm (cm.insert p info') := by
  intro q infoq hq
  by_cases hqp : q = p
  · subst hqp
    rw [show cm.insert q info' q = some info' from by simp [CMap.insert]] at hq
    injection hq with hq
    subst hq
    refine ⟨info, hp, by rw [hch], fun j hj hj' => ?_⟩
    have hg := List.get_of_eq hch ⟨j, hj⟩
    exact ⟨by rw [hg], by rw [hg]⟩
  · rw [show cm.insert p info' q = cm q from by simp [CMap.insert, hqp]] at hq
    exact ⟨infoq, hq, rfl, fun j hj hj' => ⟨rfl, rfl⟩⟩

theorem set_full_file_checksums_shape (cm : CMap) (p : String)
    (lc rc : Option String) :
    ChunkShape cm (ChunkManager.set_full_file_checksums cm p lc rc).2 := by
  cases hp : cm p with
  | none =>
    have he : (ChunkManager.set_full_file_checksums cm p lc rc).2 = cm := by
      unfold ChunkManager.set_full_file_checksums
      simp only [hp]
    rw [he]
    exact chunkShape_refl cm
  | some info =>
    cases hlc : lc with
    | none =>
      cases hrc : rc with
      | none =>
        have he : (ChunkManager.set_full_file_checksums cm p none none).2 =
            cm.insert p info := by
          unfold ChunkManager.set_full_file_checksums
          simp only [hp]
        rw [he]
        exact insert_same_chunks_shape cm p info info hp rfl
      | some v =>
        have he : (ChunkManager.set_full_file_checksums cm p none (some v)).2 =
            cm.insert p { info with full_file_checksum := some v } := by
          unfold ChunkManager.set_full_file_checksums
          simp only [hp]
        rw [he]
        exact insert_same_chunks_shape cm p info _ hp rfl
    | some w =>
      cases hrc : rc with
      | none =>
        have he : (ChunkManager.set_full_file_checksums cm p (some w) none).2 =
            cm.insert p { info with local_full_checksum := some w } := by
          unfold ChunkManager.set_full_file_checksums
          simp only [hp]
        rw [he]
        exact insert_same_chunks_shape cm p info _ hp rfl
      | some v =>
        have he : (ChunkManager.set_full_file_checksums cm p (some w) (some v)).2 =
            cm.insert p { info with local_full_checksum := some w,
                                    full_file_checksum := some v } := by
          unfold ChunkManager.set_full_file_checksums
          simp only [hp]
        rw [he]
        exact insert_same_chunks_shape cm p info _ hp rfl

theorem mark_file_complete_shape (cm : CMap) (p : String) (v : Bool) :
    ChunkShape cm (ChunkManager.mark_file_complete cm p v).2 := by
  cases hp : cm p with
  | none =>
    have he : (ChunkManager.mark_file_complete cm p v).2 = cm := by
      unfold ChunkManager.mark_file_complete
      simp only [hp]
    rw [he]
    exact chunkShape_refl cm
  | some info =>
    have he : (ChunkManager.mark_file_complete cm p v).2 =
        cm.insert p { info with is_complete := true, is_valid := some v } := by
      unfold ChunkManager.mark_file_complete
      simp only [hp]
    rw [he]
    exact insert_same_chunks_shape cm p info _ hp rfl

theorem validate_full_file_shape (cm : CMap) (p : String) :
    ChunkShape cm (ChunkManager.validate_full_file cm p).2 := by
  cases hp : cm p with
  | none =>
    have he : (ChunkManager.validate_full_file cm p).2 = cm := by
      unfold ChunkManager.validate_full_file
      simp only [hp]
    rw [he]
    exact chunkShape_refl cm
  | some info =>
    cases hl : info.local_full_checksum with
    | none =>
      have he : (ChunkManager.validate_full_file cm p).2 = cm := by
        unfold ChunkManager.validate_full_file
        simp only [hp, hl]
      rw [he]
      exact chunkShape_refl cm
    | some w =>
      cases hr : info.full_file_checksum with
      | none =>
        have he : (ChunkManager.validate_full_file cm p).2 = cm := by
          unfold ChunkManager.validate_full_file
          simp only [hp, hl, hr]
        rw [he]
        exact chunkShape_refl cm
      | some v =>
        have he : (ChunkManager.validate_full_file cm p).2 =
            (ChunkManager.mark_file_complete cm p (w = v)).2 := by
          unfold ChunkManager.validate_full_file
          simp only [hp, hl, hr]
        rw [he]
        exact mark_file_complete_shape cm p _

theorem remove_file_shape (cm : CMap) (p : String) :
    ChunkShape cm (ChunkManager.remove_file cm p).2 := by
  have key : ∀ q info', (ChunkManager.remove_file cm p).2 q = some info' →
      cm q = some info' := by
    intro q info' hq
    unfold ChunkManager.remove_file at hq
    cases hp : cm p with
    | none =>
      rw [hp] at hq
      exact hq
    | some info =>
      rw [hp] at hq
      simp only [] at hq
      unfold CMap.erase at hq
      by_cases hqp : q = p
      · rw [if_pos hqp] at hq
        exact Option.noConfusion hq
      · rw [if_neg hqp] at hq
        exact hq
  intro q info' hq
  exact ⟨info', key q info' hq, rfl, fun j hj hj' => ⟨rfl, rfl⟩⟩

theorem apply_remote_checksums_shape (p : String) :
    ∀ (l : List (Nat × String)) (cm : CMap),
      ChunkShape cm (l.foldl
        (fun acc ic => (ChunkManager.update_chunk_checksum acc p ic.1 none (some ic.2)).2) cm) := by
  intro l
  induction l with
  | nil => intro cm; exact chunkShape_refl cm
  | cons x xs ih =>
    intro cm
    rw [List.foldl_cons]
    exact chunkShape_trans (update_chunk_checksum_shape cm p x.1 none (some x.2)) (ih _)

theorem bumpEmit_nil (e : String → Nat → Nat) (p : String) (i : Nat) :
    bumpEmit e [] p i = e p i := by
  simp [bumpEmit]

theorem chunkInv_emit_le (cfg : ValidationConfig) {d d' : DispatchState}
    {e e' : String → Nat → Nat} (h : ChunkInv cfg ⟨d, e⟩) (hcm : d'.cm = d.cm)
    (hle : ∀ p i, e' p i ≤ e p i) : ChunkInv cfg ⟨d', e'⟩ := by
  intro p info hp
  rw [hcm] at hp
  obtain ⟨hidx, hmem⟩ := h p info hp
  exact ⟨hidx, fun c hc =>
    ⟨le_trans (hle p c.index) (hmem c hc).1, (hmem c hc).2⟩⟩

theorem chunkInv_of_shape (cfg : ValidationConfig) {d d' : DispatchState}
    {e e' : String → Nat → Nat} (h : ChunkInv cfg ⟨d, e⟩)
    (hs : ChunkShape d.cm d'.cm) (hle : ∀ p i, e' p i ≤ e p i) :
    ChunkInv cfg ⟨d', e'⟩ := by
  intro p info' hp'
  obtain ⟨info, hp, hlen, hf⟩ := hs p info' hp'
  obtain ⟨hidx, hmem⟩ := h p info hp
  refine ⟨?_, ?_⟩
  · intro i hi
    have hi' : i < info.chunks.length := by omega
    rw [(hf i hi hi').1]
    exact hidx i hi'
  · intro c' hc'
    obtain ⟨⟨j, hj⟩, hget⟩ := List.mem_iff_get.mp hc'
    have hj' : j < info.chunks.length := by omega
    have hC := hf j hj hj'
    have hmemc : info.chunks.get ⟨j, hj'⟩ ∈ info.chunks := List.get_mem _ _ _
    have hm := hmem _ hmemc
    constructor
    · calc e' p c'.index ≤ e p c'.index := hle p c'.index
        _ = e p (info.chunks.get ⟨j, hj'⟩).index := by rw [← hget, hC.1]
        _ ≤ (info.chunks.get ⟨j, hj'⟩).retry_count := hm.1
        _ = c'.retry_count := by rw [← hget, hC.2]
    · rw [← hget, hC.2]
      exact hm.2

theorem buildChunks_index_get2 (cs fs : Nat) :
    ∀ (fuel offset idx j : Nat) (c : ChunkInfo),
      (ChunkManager.buildChunks cs fs fuel offset idx).get? j = some c →
      c.index = idx + j := by
  intro fuel
  induction fuel with
  | zero =>
    intro offset idx j c hc
    simp [ChunkManager.buildChunks] at hc
  | succ fuel ih =>
    intro offset idx j c hc
    by_cases hof : offset < fs
    · have hunfold : ChunkManager.buildChunks cs fs (fuel + 1) offset idx =
          { index := idx, offset := offset, size := min cs (fs - offset) } ::
            ChunkManager.buildChunks cs fs fuel (offset + min cs (fs - offset)) (idx + 1) := by
        simp [ChunkManager.buildChunks, hof]
      rw [hunfold] at hc
      cases j with
      | zero =>
        injection hc with hc
        rw [← hc]
        simp
      | succ k =>
        rw [List.get?_cons_succ] at hc
        have := ih _ _ k c hc
        omega
    · rw [buildChunks_of_ge cs fs (fuel + 1) offset idx (by omega)] at hc
      simp at hc

theorem hidx_to_get2 {info : FileValidationInfo}
    (hidx : ∀ i (h : i < info.chunks.length), (info.chunks.get ⟨i, h⟩).index = i) :
    ∀ j c, info.chunks.get? j = some c → c.index = j := by
  intro j c hc
  have hj : j < info.chunks.length := by
    by_contra hn
    rw [List.get?_eq_none.mpr (by omega)] at hc
    exact Option.noConfusion hc
  rw [List.get?_eq_get hj] at hc
  injection hc with hc
  rw [← hc]
  exact hidx j hj

theorem index_map_range (info : FileValidationInfo)
    (hidx : ∀ j c, info.chunks.get? j = some c → c.index = j) :
    info.chunks.map ChunkInfo.index = List.range info.chunks.length := by
  apply List.ext
  intro n
  rw [List.get?_map]
  by_cases hn : n < info.chunks.length
  · obtain ⟨c, hc⟩ : ∃ c, info.chunks.get? n = some c := by
      rw [List.get?_eq_get hn]
      exact ⟨_, rfl⟩
    rw [hc, List.get?_range hn]
    simp [hidx n c hc]
  · rw [List.get?_eq_none.mpr (by omega),
      List.get?_eq_none.mpr (by simpa using hn)]
    rfl

theorem create_chunks_inv (cfg : ValidationConfig) {d : DispatchState}
    {e : String → Nat → Nat} (h : ChunkInv cfg ⟨d, e⟩) (lp : String) (fs : Nat)
    (csz : Option Int) {d' : DispatchState}
    (hd : d'.cm = (ChunkManager.create_chunks cfg d.cm lp fs csz).2) :
    ChunkInv cfg ⟨d', resetEmit (some lp) e⟩ := by
  intro p info hp
  rw [hd] at hp
  by_cases hplp : p = lp
  · subst hplp
    have hself : (ChunkManager.create_chunks cfg d.cm p fs csz).2 p = some
        { file_path := p, file_size := fs, algorithm := cfg.algorithm,
          chunks := ChunkManager.buildChunks
            (ChunkManager.effective_chunk_size cfg csz) fs fs 0 0 } := by
      unfold ChunkManager.create_chunks CMap.insert
      simp
    rw [hself] at hp
    injection hp with hp
    subst hp
    constructor
    · intro i hi
      have h0 := buildChunks_index_get2 (ChunkManager.effective_chunk_size cfg csz)
        fs fs 0 0 i _ (List.get?_eq_get hi)
      rw [h0]
      omega
    · intro c hc
      obtain ⟨_, hr, _, _⟩ := buildChunks_fresh _ fs fs 0 0 c hc
      constructor
      · rw [hr]
        show (if p = p then 0 else e p c.index) ≤ 0
        simp
      · rw [hr]
        exact Nat.zero_le _
  · have hoth : (ChunkManager.create_chunks cfg d.cm lp fs csz).2 p = d.cm p := by
      unfold ChunkManager.create_chunks CMap.insert
      simp [hplp]
    rw [hoth] at hp
    obtain ⟨hidx, hmem⟩ := h p info hp
    refine ⟨hidx, fun c hc => ⟨?_, (hmem c hc).2⟩⟩
    show (if p = lp then 0 else e p c.index) ≤ c.retry_count
    rw [if_neg hplp]
    exact (hmem c hc).1

theorem mark_chunk_downloading_eq (cm : CMap) (p : String) (i : Nat)
    (info : FileValidationInfo) (c : ChunkInfo) (hp : cm p = some info)
    (hc : info.chunks.get? i = some c) :
    (ChunkManager.mark_chunk_downloading cm p i).2 =
      ChunkManager.setChunk cm p info i c.mark_downloading := by
  unfold ChunkManager.mark_chunk_downloading
  simp only [hp, hc]

theorem mark_and_queue_cons_fst (cm : CMap) (lp : String) (rp : Option String)
    (c : ChunkInfo) (rest : List ChunkInfo) :
    (ValidationDispatch.mark_and_queue cm lp rp (c :: rest)).1 =
      (ValidationDispatch.mark_and_queue
        (ChunkManager.mark_chunk_downloading cm lp c.index).2 lp rp rest).1 := rfl

theorem mark_and_queue_cons_snd (cm : CMap) (lp : String) (rp : Option String)
    (c : ChunkInfo) (rest : List ChunkInfo) :
    (ValidationDispatch.mark_and_queue cm lp rp (c :: rest)).2 =
      (match rp with
       | some r => [{ local_path := lp, remote_path := r, chunk_index := c.index,
                      offset := c.offset, size := c.size : CorruptChunkRedownload }]
       | none => []) ++
      (ValidationDispatch.mark_and_queue
        (ChunkManager.mark_chunk_downloading cm lp c.index).2 lp rp rest).2 := rfl

theorem mark_and_queue_spec (lp : String) (rp : Option String) :
    ∀ (L : List ChunkInfo) (cm : CMap) (info : FileValidationInfo),
      cm lp = some info →
      (∀ c ∈ L, c.index < info.chunks.length) →
      (L.map ChunkInfo.index).Nodup →
      ∃ info',
        (ValidationDispatch.mark_and_queue cm lp rp L).1 lp = some info' ∧
        (∀ q, q ≠ lp → (ValidationDispatch.mark_and_queue cm lp rp L).1 q = cm q) ∧
        info'.chunks.length = info.chunks.length ∧
        ∀ j,
          (j ∈ L.map ChunkInfo.index →
            ∃ c0, info.chunks.get? j = some c0 ∧
              info'.chunks.get? j = some c0.mark_downloading) ∧
          (j ∉ L.map ChunkInfo.index →
            info'.chunks.get? j = info.chunks.get? j) := by
  intro L
  induction L with
  | nil =>
    intro cm info hp hlt hnd
    exact ⟨info, hp, fun q hq => rfl, rfl,
      fun j => ⟨fun hj => absurd hj (by simp), fun _ => rfl⟩⟩
  | cons c rest ih =>
    intro cm info hp hlt hnd
    have hin : c.index < info.chunks.length := hlt c (List.mem_cons_self _ _)
    obtain ⟨d0, hd0⟩ : ∃ d0, info.chunks.get? c.index = some d0 := by
      rw [List.get?_eq_get hin]
      exact ⟨_, rfl⟩
    have hcm1 : (ChunkManager.mark_chunk_downloading cm lp c.index).2 =
        ChunkManager.setChunk cm lp info c.index d0.mark_downloading :=
      mark_chunk_downloading_eq cm lp c.index info d0 hp hd0
    have hnd' := List.nodup_cons.mp
      (show (c.index :: rest.map ChunkInfo.index).Nodup from hnd)
    have hhead : c.index ∉ rest.map ChunkInfo.index := hnd'.1
    have hp1 : (ChunkManager.mark_chunk_downloading cm lp c.index).2 lp =
        some { info with chunks := info.chunks.set c.index d0.mark_downloading } := by
      rw [hcm1]
      exact setChunk_self cm lp info c.index d0.mark_downloading
    have hlt1 : ∀ c' ∈ rest,
        c'.index < ({ info with chunks := info.chunks.set c.index d0.mark_downloading } :
          FileValidationInfo).chunks.length := by
      intro c' hc'
      have := hlt c' (List.mem_cons_of_mem _ hc')
      simpa using this
    obtain ⟨info', h1, h2, h3, h4⟩ :=
      ih (ChunkManager.mark_chunk_downloading cm lp c.index).2
        { info with chunks := info.chunks.set c.index d0.mark_downloading }
        hp1 hlt1 hnd'.2
    refine ⟨info', ?_, ?_, ?_, ?_⟩
    · rw [mark_and_queue_cons_fst]
      exact h1
    · intro q hq
      rw [mark_and_queue_cons_fst, h2 q hq, hcm1]
      exact setChunk_other cm lp info c.index d0.mark_downloading q hq
    · rw [h3]
      simp
    · intro j
      constructor
      · intro hj
        rcases List.mem_cons.mp
            (show j ∈ c.index :: rest.map ChunkInfo.index from hj) with hje | hjm
        · have hnot : j ∉ rest.map ChunkInfo.index := by
            rw [hje]
            exact hhead
          have hsame := (h4 j).2 hnot
          refine ⟨d0, by rw [hje]; exact hd0, ?_⟩
          rw [hsame, hje]
          exact list_get?_set_self info.chunks c.index d0.mark_downloading hin
        · obtain ⟨c0, hc0, hc0'⟩ := (h4 j).1 hjm
          have hne : j ≠ c.index := fun he => hhead (he ▸ hjm)
          rw [show ({ info with chunks := info.chunks.set c.index d0.mark_downloading } :
              FileValidationInfo).chunks.get? j = info.chunks.get? j from
            list_get?_set_other info.chunks c.index j d0.mark_downloading hne] at hc0
          exact ⟨c0, hc0, hc0'⟩
      · intro hj
        have hjm : j ∉ rest.map ChunkInfo.index := fun hm =>
          hj (List.mem_cons_of_mem _ hm)
        have hne : j ≠ c.index := fun he => hj (by
          rw [he]
          exact List.mem_cons_self _ _)
        rw [(h4 j).2 hjm]
        exact list_get?_set_other info.chunks c.index j d0.mark_downloading hne

theorem mark_and_queue_emit_le (lp : String) (rp : Option String) :
    ∀ (L : List ChunkInfo), (L.map ChunkInfo.index).Nodup →
      ∀ (cm : CMap) (e : String → Nat → Nat) (p : String) (i : Nat),
        bumpEmit e (ValidationDispatch.mark_and_queue cm lp rp L).2 p i ≤
          e p i + (if p = lp ∧ i ∈ L.map ChunkInfo.index then 1 else 0) := by
  intro L
  induction L with
  | nil =>
    intro _ cm e p i
    exact Nat.le_add_right _ _
  | cons c rest ih =>
    intro hnd cm e p i
    have hnd' := List.nodup_cons.mp
      (show (c.index :: rest.map ChunkInfo.index).Nodup from hnd)
    have hrec := ih hnd'.2 (ChunkManager.mark_chunk_downloading cm lp c.index).2 e p i
    rw [mark_and_queue_cons_snd]
    unfold bumpEmit at hrec ⊢
    rw [List.filter_append, List.length_append]
    have hA : ((match rp with
        | some r => [{ local_path := lp, remote_path := r, chunk_index := c.index,
                       offset := c.offset, size := c.size : CorruptChunkRedownload }]
        | none => ([] : List CorruptChunkRedownload)).filter
          fun (r : CorruptChunkRedownload) =>
            r.local_path = p ∧ r.chunk_index = i).length ≤
        (if p = lp ∧ i = c.index then 1 else 0) := by
      cases rp with
      | none => simp
      | some r =>
        by_cases hcond : p = lp ∧ i = c.index
        · rw [if_pos hcond]
          exact le_trans (List.length_filter_le _ _) (by simp)
        · rw [if_neg hcond]
          have hnp : ¬(lp = p ∧ c.index = i) := fun hx => hcond ⟨hx.1.symm, hx.2.symm⟩
          simp [List.filter_cons, hnp]
    by_cases hp : p = lp
    · by_cases h1 : i = c.index
      · have h2 : i ∉ rest.map ChunkInfo.index := by
          rw [h1]
          exact hnd'.1
        rw [if_pos ⟨hp, show i ∈ (c :: rest).map ChunkInfo.index from by
          rw [h1]
          exact List.mem_cons_self _ _⟩]
        rw [if_neg (fun hx => h2 hx.2)] at hrec
        rw [if_pos ⟨hp, h1⟩] at hA
        omega
      · rw [if_neg (fun hx => h1 hx.2)] at hA
        by_cases h2 : i ∈ rest.map ChunkInfo.index
        · rw [if_pos ⟨hp, List.mem_cons_of_mem _ h2⟩]
          rw [if_pos ⟨hp, h2⟩] at hrec
          omega
        · rw [if_neg (fun hx => by
            rcases List.mem_cons.mp
                (show i ∈ c.index :: rest.map ChunkInfo.index from hx.2) with hje | hjm
            · exact h1 hje
            · exact h2 hjm)]
          rw [if_neg (fun hx => h2 hx.2)] at hrec
          omega
    · rw [if_neg (fun hx => hp hx.1)]
      rw [if_neg (fun hx => hp hx.1)] at hrec
      rw [if_neg (fun hx => hp hx.1)] at hA
      omega

theorem mark_and_queue_inv (cfg : ValidationConfig) {d : DispatchState}
    {e : String → Nat → Nat} (h : ChunkInv cfg ⟨d, e⟩) (lp : String)
    (rp : Option String) (info : FileValidationInfo) (hcm : d.cm lp = some info)
    (L : List ChunkInfo) (hLsub : L.Sublist info.chunks)
    (hLret : ∀ c ∈ L, ChunkManager.can_retry_chunk cfg d.cm lp c.index = true)
    {d' : DispatchState}
    (hd : d'.cm = (ValidationDispatch.mark_and_queue d.cm lp rp L).1) :
    ChunkInv cfg ⟨d', bumpEmit e (ValidationDispatch.mark_and_queue d.cm lp rp L).2⟩ := by
  obtain ⟨hidx, hmem⟩ := h lp info hcm
  have hidx2 : ∀ j c, info.chunks.get? j = some c → c.index = j := hidx_to_get2 hidx
  have hnd : (L.map ChunkInfo.index).Nodup := by
    have hsub : List.Sublist (L.map ChunkInfo.index) (info.chunks.map ChunkInfo.index) :=
      hLsub.map ChunkInfo.index
    rw [index_map_range info hidx2] at hsub
    exact hsub.nodup (List.nodup_range _)
  have hLpos : ∀ c ∈ L, info.chunks.get? c.index = some c := by
    intro c hc
    obtain ⟨⟨j, hj⟩, hget⟩ := List.mem_iff_get.mp (hLsub.subset hc)
    have hji : c.index = j := by
      rw [← hget]
      exact hidx j hj
    rw [hji, List.get?_eq_get hj, hget]
  have hLlt : ∀ c ∈ L, c.index < info.chunks.length := by
    intro c hc
    by_contra hn
    have hsome := hLpos c hc
    rw [List.get?_eq_none.mpr (by omega)] at hsome
    exact Option.noConfusion hsome
  have hLretry : ∀ c ∈ L, c.retry_count < cfg.max_retries := by
    intro c hc
    have hb := hLret c hc
    unfold ChunkManager.can_retry_chunk at hb
    simp only [hcm, hLpos c hc] at hb
    exact of_decide_eq_true hb
  obtain ⟨info', h1, h2, h3, h4⟩ := mark_and_queue_spec lp rp L d.cm info hcm hLlt hnd
  intro p0 infop hp0
  rw [hd] at hp0
  by_cases hplp : p0 = lp
  · subst hplp
    rw [h1] at hp0
    injection hp0 with hp0
    subst hp0
    have hpos' : ∀ j c, info'.chunks.get? j = some c → c.index = j := by
      intro j c hc
      by_cases hjm : j ∈ L.map ChunkInfo.index
      · obtain ⟨c0, hc0, hc0'⟩ := (h4 j).1 hjm
        rw [hc0'] at hc
        injection hc with hc
        rw [← hc]
        show c0.index = j
        exact hidx2 j c0 hc0
      · rw [(h4 j).2 hjm] at hc
        exact hidx2 j c hc
    refine ⟨fun i hi => hpos' i _ (List.get?_eq_get hi), ?_⟩
    intro c' hc'
    obtain ⟨⟨j, hj⟩, hget⟩ := List.mem_iff_get.mp hc'
    have hgq : info'.chunks.get? j = some c' := by
      rw [List.get?_eq_get hj, hget]
    have hcidx : c'.index = j := hpos' j c' hgq
    have hble := mark_and_queue_emit_le p0 rp L hnd d.cm e p0 c'.index
    rw [hcidx] at hble
    by_cases hjm : j ∈ L.map ChunkInfo.index
    · obtain ⟨c0, hc0, hc0'⟩ := (h4 j).1 hjm
      have hc'eq : c' = c0.mark_downloading :=
        Option.some.inj (hgq.symm.trans hc0')
      have hc0mem : c0 ∈ info.chunks := List.get?_mem hc0
      have hc0idx : c0.index = j := hidx2 j c0 hc0
      obtain ⟨cL, hcL, hcLidx⟩ := List.mem_map.mp hjm
      have hcLpos : info.chunks.get? j = some cL := by
        rw [← hcLidx]
        exact hLpos cL hcL
      have hc0L : c0 = cL := Option.some.inj (hc0.symm.trans hcLpos)
      rw [if_pos ⟨rfl, hjm⟩] at hble
      have he1 : e p0 c0.index ≤ c0.retry_count := (hmem c0 hc0mem).1
      rw [hc0idx] at he1
      have hr1 : c0.retry_count < cfg.max_retries := by
        rw [hc0L]
        exact hLretry cL hcL
      constructor
      · rw [hcidx, hc'eq]
        show bumpEmit e (ValidationDispatch.mark_and_queue d.cm p0 rp L).2 p0 j ≤
          c0.retry_count + 1
        omega
      · rw [hc'eq]
        show c0.retry_count + 1 ≤ cfg.max_retries
        omega
    · have hcmem : info.chunks.get? j = some c' := by
        rw [← (h4 j).2 hjm, hgq]
      have hc'mem : c' ∈ info.chunks := List.get?_mem hcmem
      rw [if_neg (fun hx => hjm hx.2)] at hble
      have he1 : e p0 c'.index ≤ c'.retry_count := (hmem c' hc'mem).1
      rw [hcidx] at he1
      refine ⟨?_, (hmem c' hc'mem).2⟩
      show bumpEmit e (ValidationDispatch.mark_and_queue d.cm p0 rp L).2 p0 c'.index ≤
        c'.retry_count
      rw [hcidx]
      omega
  · rw [h2 p0 hplp] at hp0
    obtain ⟨hidx0, hmem0⟩ := h p0 infop hp0
    refine ⟨hidx0, fun c hc => ⟨?_, (hmem0 c hc).2⟩⟩
    have hble := mark_and_queue_emit_le lp rp L hnd d.cm e p0 c.index
    rw [if_neg (fun hx => hplp hx.1)] at hble
    have h7 : e p0 c.index ≤ c.retry_count := (hmem0 c hc).1
    show bumpEmit e (ValidationDispatch.mark_and_queue d.cm lp rp L).2 p0 c.index ≤
      c.retry_count
    omega

theorem hash_pending_chunk_inv (cfg : ValidationConfig) (env : Env)
    {s : DispatchState} {e : String → Nat → Nat} (h : ChunkInv cfg ⟨s, e⟩)
    (lp : String) (c : ChunkInfo) :
    ChunkInv cfg ⟨(ValidationDispatch.hash_pending_chunk env s lp c).state,
      bumpEmit e (ValidationDispatch.hash_pending_chunk env s lp c).emitted⟩ := by
  unfold ValidationDispatch.hash_pending_chunk
  cases hres : env.local_chunk lp c.offset c.size with
  | ok hsh =>
    exact chunkInv_of_shape cfg h
      (chunkShape_trans (update_chunk_checksum_shape s.cm lp c.index (some hsh) none)
        (validate_chunk_shape _ lp c.index))
      (fun p i => le_of_eq (bumpEmit_nil e p i))
  | error _ =>
    exact chunkInv_of_shape cfg h (mark_corrupt_direct_shape s.cm lp c.index)
      (fun p i => le_of_eq (bumpEmit_nil e p i))

theorem full_file_fallback_inv (cfg : ValidationConfig) (env : Env)
    {s : DispatchState} {e : String → Nat → Nat} (h : ChunkInv cfg ⟨s, e⟩)
    (lp : String) :
    ChunkInv cfg ⟨(ValidationDispatch.full_file_fallback env s lp).state,
      bumpEmit e (ValidationDispatch.full_file_fallback env s lp).emitted⟩ := by
  unfold ValidationDispatch.full_file_fallback
  cases hres : env.local_file lp with
  | ok hsh =>
    exact chunkInv_of_shape cfg h
      (chunkShape_trans (set_full_file_checksums_shape s.cm lp (some hsh) none)
        (chunkShape_trans (validate_full_file_shape _ lp) (remove_file_shape _ lp)))
      (fun p i => le_of_eq (bumpEmit_nil e p i))
  | error _ =>
    exact chunkInv_of_shape cfg h (remove_file_shape s.cm lp)
      (fun p i => le_of_eq (bumpEmit_nil e p i))

theorem finish_or_retry_inv (ctx : DispatchCtx) {s : DispatchState}
    {e : String → Nat → Nat} (h : ChunkInv ctx.cfg ⟨s, e⟩) (lp : String) :
    ChunkInv ctx.cfg ⟨(ValidationDispatch.finish_or_retry ctx s lp).state,
      bumpEmit e (ValidationDispatch.finish_or_retry ctx s lp).emitted⟩ := by
  by_cases h1 : s.active_inline ∧ ChunkManager.get_pending_chunks s.cm lp ≠ []
  · have he : ValidationDispatch.finish_or_retry ctx s lp = ⟨s, none, [], [], none⟩ := by
      unfold ValidationDispatch.finish_or_retry
      rw [if_pos h1]
    rw [he]
    exact chunkInv_emit_le ctx.cfg h rfl (fun p i => le_of_eq (bumpEmit_nil e p i))
  · cases hcor : ChunkManager.get_corrupt_chunks s.cm lp with
    | nil =>
      have he : ValidationDispatch.finish_or_retry ctx s lp =
          ⟨{ s with
              cm := (ChunkManager.remove_file
                (ChunkManager.mark_file_complete s.cm lp true).2 lp).2
              active_file := none
              active_remote_path := none
              inline_local_sizes := fun q => if q = lp then none else s.inline_local_sizes q },
            some { name := pyBasename lp, file_path := lp,
                   is_valid := true, corrupt_chunks := [] },
            [], [], none⟩ := by
        unfold ValidationDispatch.finish_or_retry
        rw [if_neg h1]
        simp only [hcor]
      rw [he]
      exact chunkInv_of_shape ctx.cfg h
        (chunkShape_trans (mark_file_complete_shape s.cm lp true) (remove_file_shape _ lp))
        (fun p i => le_of_eq (bumpEmit_nil e p i))
    | cons c0 rest =>
      by_cases hret : (c0 :: rest).filter
          (fun c => ChunkManager.can_retry_chunk ctx.cfg s.cm lp c.index) = []
      · have he : ValidationDispatch.finish_or_retry ctx s lp =
            ⟨{ s with
                cm := (ChunkManager.remove_file
                  (ChunkManager.mark_file_complete s.cm lp false).2 lp).2
                active_file := none
                active_remote_path := none
                inline_local_sizes := fun q => if q = lp then none else s.inline_local_sizes q },
              some { name := pyBasename lp, file_path := lp, is_valid := false,
                     corrupt_chunks := (c0 :: rest).map ChunkInfo.index },
              [], [], none⟩ := by
          unfold ValidationDispatch.finish_or_retry
          rw [if_neg h1]
          simp only [hcor]
          rw [if_pos hret]
        rw [he]
        exact chunkInv_of_shape ctx.cfg h
          (chunkShape_trans (mark_file_complete_shape s.cm lp false) (remove_file_shape _ lp))
          (fun p i => le_of_eq (bumpEmit_nil e p i))
      · have he : ValidationDispatch.finish_or_retry ctx s lp =
            ⟨{ s with
                cm := (ValidationDispatch.mark_and_queue s.cm lp s.active_remote_path
                  ((c0 :: rest).filter
                    (fun c => ChunkManager.can_retry_chunk ctx.cfg s.cm lp c.index))).1
                pending_redownloads := s.pending_redownloads ++
                  (ValidationDispatch.mark_and_queue s.cm lp s.active_remote_path
                    ((c0 :: rest).filter
                      (fun c => ChunkManager.can_retry_chunk ctx.cfg s.cm lp c.index))).2 },
              none,
              (ValidationDispatch.mark_and_queue s.cm lp s.active_remote_path
                ((c0 :: rest).filter
                  (fun c => ChunkManager.can_retry_chunk ctx.cfg s.cm lp c.index))).2,
              [], none⟩ := by
          unfold ValidationDispatch.finish_or_retry
          rw [if_neg h1]
          simp only [hcor]
          rw [if_neg hret]
        rw [he]
        cases hscm : s.cm lp with
        | none =>
          exfalso
          unfold ChunkManager.get_corrupt_chunks at hcor
          rw [hscm] at hcor
          exact List.noConfusion hcor
        | some info =>
          have hcor' : info.corrupt_chunks = c0 :: rest := by
            unfold ChunkManager.get_corrupt_chunks at hcor
            rw [hscm] at hcor
            exact hcor
          have hsub : List.Sublist
              ((c0 :: rest).filter
                (fun c => ChunkManager.can_retry_chunk ctx.cfg s.cm lp c.index))
              info.chunks := by
            have h21 : List.Sublist (c0 :: rest) info.chunks := by
              rw [← hcor']
              exact List.filter_sublist _
            exact (List.filter_sublist _).trans h21
          have hLret : ∀ cc ∈ (c0 :: rest).filter
              (fun c => ChunkManager.can_retry_chunk ctx.cfg s.cm lp c.index),
              ChunkManager.can_retry_chunk ctx.cfg s.cm lp cc.index = true := by
            intro cc hcc
            exact (List.mem_filter.mp hcc).2
          exact mark_and_queue_inv ctx.cfg h lp s.active_remote_path info hscm _
            hsub hLret rfl

theorem continue_validation_inv (ctx : DispatchCtx) (env : Env) {s : DispatchState}
    {e : String → Nat → Nat} (h : ChunkInv ctx.cfg ⟨s, e⟩) :
    ChunkInv ctx.cfg ⟨(ValidationDispatch.continue_validation ctx env s).state,
      bumpEmit e (ValidationDispatch.continue_validation ctx env s).emitted⟩ := by
  cases ha : s.active_file with
  | none =>
    have he : ValidationDispatch.continue_validation ctx env s =
        ⟨s, none, [], [], none⟩ := by
      unfold ValidationDispatch.continue_validation
      rw [ha]
    rw [he]
    exact chunkInv_emit_le ctx.cfg h rfl (fun p i => le_of_eq (bumpEmit_nil e p i))
  | some lp =>
    cases hcm : s.cm lp with
    | none =>
      have he : ValidationDispatch.continue_validation ctx env s =
          ⟨{ s with active_file := none }, none, [], [], none⟩ := by
        unfold ValidationDispatch.continue_validation
        simp only [ha, hcm]
      rw [he]
      exact chunkInv_emit_le ctx.cfg h rfl (fun p i => le_of_eq (bumpEmit_nil e p i))
    | some info =>
      by_cases hff : info.full_file_checksum.isSome ∧ info.local_full_checksum = none
      · have he : ValidationDispatch.continue_validation ctx env s =
            ValidationDispatch.full_file_fallback env s lp := by
          unfold ValidationDispatch.continue_validation
          simp only [ha, hcm]
          rw [if_pos hff]
        rw [he]
        exact full_file_fallback_inv ctx.cfg env h lp
      · cases hap : ValidationDispatch.actionable_pending s lp with
        | cons c tail =>
          have he : ValidationDispatch.continue_validation ctx env s =
              ValidationDispatch.hash_pending_chunk env s lp c := by
            unfold ValidationDispatch.continue_validation
            simp only [ha, hcm]
            rw [if_neg hff]
            simp only [hap]
          rw [he]
          exact hash_pending_chunk_inv ctx.cfg env h lp c
        | nil =>
          have he : ValidationDispatch.continue_validation ctx env s =
              ValidationDispatch.finish_or_retry ctx s lp := by
            unfold ValidationDispatch.continue_validation
            simp only [ha, hcm]
            rw [if_neg hff]
            simp only [hap]
          rw [he]
          exact finish_or_retry_inv ctx h lp

theorem continue_validation_created (ctx : DispatchCtx) (env : Env)
    (s : DispatchState) :
    (ValidationDispatch.continue_validation ctx env s).created = none := by
  unfold ValidationDispatch.continue_validation ValidationDispatch.full_file_fallback
    ValidationDispatch.hash_pending_chunk ValidationDispatch.finish_or_retry
  dsimp only []
  repeat' split
  all_goals rfl

theorem start_validation_inv (ctx : DispatchCtx) (env : Env)
    (cmd : ValidationCommand) {s : DispatchState} {e : String → Nat → Nat}
    (h : ChunkInv ctx.cfg ⟨s, e⟩) :
    ChunkInv ctx.cfg ⟨(ValidationDispatch.start_validation ctx env cmd s).state,
      bumpEmit
        (resetEmit (ValidationDispatch.start_validation ctx env cmd s).created e)
        (ValidationDispatch.start_validation ctx env cmd s).emitted⟩ := by
  have hbase : ChunkInv ctx.cfg
      ⟨{ s with
          cm := (ChunkManager.create_chunks ctx.cfg s.cm
            (pyJoin ctx.local_base_path cmd.local_path) cmd.file_size
            (some (AdaptiveChunkSizer.calculate_chunk_size ctx.cfg s.net_stats
              cmd.file_size))).2
          active_file := some (pyJoin ctx.local_base_path cmd.local_path)
          active_remote_path := some (pyJoin ctx.remote_base_path cmd.remote_path)
          active_inline := cmd.inline },
        resetEmit (some (pyJoin ctx.local_base_path cmd.local_path)) e⟩ :=
    create_chunks_inv ctx.cfg h (pyJoin ctx.local_base_path cmd.local_path)
      cmd.file_size _ rfl
  simp only [ValidationDispatch.start_validation]
  split
  · rename_i heq
    exfalso
    simp [ChunkManager.get_validation_info, ChunkManager.create_chunks,
      CMap.insert] at heq
  · rename_i info heq
    split
    · rename_i checksums hrc
      exact continue_validation_inv ctx env
        (chunkInv_of_shape ctx.cfg hbase
          (apply_remote_checksums_shape (pyJoin ctx.local_base_path cmd.local_path)
            checksums.enum _)
          (fun p i => le_refl _))
    · rename_i herr
      split
      · rename_i full hrf
        exact continue_validation_inv ctx env
          (chunkInv_of_shape ctx.cfg hbase
            (set_full_file_checksums_shape _
              (pyJoin ctx.local_base_path cmd.local_path) none (some full))
            (fun p i => le_refl _))
      · rename_i herrf
        exact chunkInv_of_shape ctx.cfg hbase
          (remove_file_shape _ (pyJoin ctx.local_base_path cmd.local_path))
          (fun p i => le_of_eq (bumpEmit_nil _ p i))

theorem process_next_inv (ctx : DispatchCtx) (env : Env) {g : GState}
    (h : ChunkInv ctx.cfg g) :
    ChunkInv ctx.cfg ⟨(ValidationDispatch.process_next ctx env g.d).state,
      bumpEmit
        (resetEmit (ValidationDispatch.process_next ctx env g.d).created g.emit)
        (ValidationDispatch.process_next ctx env g.d).emitted⟩ := by
  obtain ⟨d, e⟩ := g
  cases haf : d.active_file with
  | some lp =>
    have he : ValidationDispatch.process_next ctx env d =
        ValidationDispatch.continue_validation ctx env d := by
      unfold ValidationDispatch.process_next
      simp only [haf]
    rw [he, continue_validation_created]
    exact continue_validation_inv ctx env h
  | none =>
    cases hpf : d.pending_files with
    | nil =>
      have he : ValidationDispatch.process_next ctx env d =
          ⟨d, none, [], [], none⟩ := by
        unfold ValidationDispatch.process_next
        simp only [haf, hpf]
      rw [he]
      exact chunkInv_emit_le ctx.cfg h rfl (fun p i => le_of_eq (bumpEmit_nil _ p i))
    | cons cmd rest =>
      have he : ValidationDispatch.process_next ctx env d =
          ValidationDispatch.start_validation ctx env cmd
            { d with pending_files := rest } := by
        unfold ValidationDispatch.process_next
        simp only [haf, hpf]
      rw [he]
      exact start_validation_inv ctx env cmd
        (chunkInv_emit_le ctx.cfg h rfl (fun p i => le_refl _))

theorem vstep_inv (ctx : DispatchCtx) {g g' : GState} (hstep : VStep ctx g g')
    (h : ChunkInv ctx.cfg g) : ChunkInv ctx.cfg g' := by
  cases hstep with
  | tick env g => exact process_next_inv ctx env h
  | queue cmd g =>
    have hcm : (ValidationDispatch.queue_validation ctx cmd g.d).cm = g.d.cm := by
      unfold ValidationDispatch.queue_validation
      cases hb : cmd.inline <;> simp [hb]
    exact chunkInv_emit_le ctx.cfg h hcm (fun p i => le_refl _)
  | size_update p n g =>
    have hcm : (ValidationDispatch.update_local_size ctx p n g.d).cm = g.d.cm := by
      unfold ValidationDispatch.update_local_size
      cases hm : g.d.inline_local_sizes (pyJoin ctx.local_base_path p) <;> simp [hm]
    exact chunkInv_emit_le ctx.cfg h hcm (fun p i => le_refl _)
  | resume p i g =>
    exact chunkInv_of_shape ctx.cfg h
      (reset_chunk_shape g.d.cm (pyJoin ctx.local_base_path p) i)
      (fun q j => le_refl _)
  | pop g =>
    exact chunkInv_emit_le ctx.cfg h rfl (fun p i => le_refl _)

theorem chunkInv_reachable (ctx : DispatchCtx) {g : GState}
    (hg : DReachable ctx g) : ChunkInv ctx.cfg g := by
  unfold DReachable at hg
  induction hg with
  | refl =>
    intro p info hp
    exact absurd hp (by simp [GState.init, DispatchState.init, CMap.empty])
  | tail hsteps hstep ih => exact vstep_inv ctx hstep ih

/-- C6: over any sequence of validation-worker steps (ticks under arbitrary
environments, queued commands, inline size updates, chunk resumes and
redownload pops), the number of redownload requests emitted for any chunk
of any tracked file — counted per chunk lifetime by the ghost counters,
which reset when `create_chunks` replaces a file's chunk objects — never
exceeds `max_retries`: every emission site first calls
`mark_chunk_downloading` (incrementing `retry_count`) and is guarded by
`can_retry_chunk`, which requires `retry_count < max_retries`. -/
theorem redownload_emissions_bounded (ctx : DispatchCtx) (g : GState)
    (hg : DReachable ctx g) (p : String) (info : FileValidationInfo)
    (hp : g.d.cm p = some info) (c : ChunkInfo) (hc : c ∈ info.chunks) :
    g.emit p c.index ≤ ctx.cfg.max_retries := by
  obtain ⟨hidx, hmem⟩ := chunkInv_reachable ctx hg p info hp
  exact le_trans (hmem c hc).1 (hmem c hc).2

/-- C6 witness: the bound instantiated at the concrete reachable state
`gR2` (queue `cmdR`, then one worker tick) whose file `/l/f` is tracked
with one VALID chunk. -/
theorem redownload_emissions_bounded_witness :
    (gR2.d.cm "/l/f" = some infoR ∧
      ({ index := 0, offset := 0, size := 1, remote_checksum := some "a0",
         local_checksum := some "a0", status := ChunkStatus.VALID,
         retry_count := 0 : ChunkInfo }) ∈ infoR.chunks) ∧
    gR2.emit "/l/f"
      ({ index := 0, offset := 0, size := 1, remote_checksum := some "a0",
         local_checksum := some "a0", status := ChunkStatus.VALID,
         retry_count := 0 : ChunkInfo }).index ≤ ctxR.cfg.max_retries :=
  ⟨⟨by decide, by decide⟩,
    redownload_emissions_bounded ctxR gR2
      (Relation.ReflTransGen.tail
        (Relation.ReflTransGen.tail Relation.ReflTransGen.refl
          (VStep.queue cmdR GState.init))
        (VStep.tick envR gR1))
      "/l/f" infoR (by decide)
      { index := 0, offset := 0, size := 1, remote_checksum := some "a0",
        local_checksum := some "a0", status := ChunkStatus.VALID,
        retry_count := 0 }
      (by decide)⟩
